import Mathlib

/-!
Shallow embedding of the UltimateSkillOS core subsystems and proofs of the
specification claims about them.

The embedding translates, from the Python source:

* `skill_engine/resilience.py` — the in-memory circuit breaker
  (`CircuitBreaker.is_open` / `before_call` / `on_success` / `on_failure`);
* `skill_engine/skill_base.py` — `safe_invoke`, the bounded retry / timeout /
  circuit-breaking invocation wrapper;
* `skill_engine/agent.py` — `Agent.run`, the plan-execution step loop, its
  answer extraction, termination policy and top-level error handling;
* `skill_engine/domain.py` — `AgentResult.add_step_result`;
* `memory/long_term/vector_store.py` — `VectorStore._ensure_dim` / `add` /
  `search`;
* `skill_engine/memory/faiss_backend.py` — `FAISSBackend.add` / `delete` /
  `count`;
* `skill_engine/memory/facade.py` — `MemoryFacade.add` / `search` /
  `clear_tier`.

External effects (wall-clock time, the thread pool, the router, the concrete
skills, the embedding model, SQLite and the FAISS library) are modelled as
explicit parameters or oracles, so that every definition is executable and the
control flow of the Python code is reproduced exactly.
-/

namespace SkillOS

/-- A model of the Python values flowing through the engine: strings,
integers, dictionaries (association lists with string keys; lookup returns the
first binding, matching dict semantics when keys are unique), lists and None.
Python floats and booleans are not needed by any claim; `int` stands in for
the numeric scalars accepted by `Agent._extract_answer_text`. -/
inductive PyVal where
  | str (s : String)
  | int (n : Int)
  | dict (entries : List (String × PyVal))
  | list (items : List PyVal)
  | none

/-- Python truthiness for the modelled values. -/
def pyTruthy : PyVal → Bool
  | .str s => s != ""
  | .int n => n != 0
  | .dict d => !d.isEmpty
  | .list l => !l.isEmpty
  | .none => false

mutual

/-- Model of Python `str()` on the values above.  The exact rendering of
containers only feeds the next working query in `Agent.run`, which no claim
constrains; element quoting is elided relative to the CPython repr. -/
def pyStr : PyVal → String
  | .str s => s
  | .int n => toString n
  | .dict d => "\x7b" ++ String.intercalate ", " (pyStrEntries d) ++ "\x7d"
  | .list l => "[" ++ String.intercalate ", " (pyStrItems l) ++ "]"
  | .none => "None"

/-- Renders the entries of a modelled dictionary. -/
def pyStrEntries : List (String × PyVal) → List String
  | [] => []
  | (k, v) :: rest => (k ++ ": " ++ pyStr v) :: pyStrEntries rest

/-- Renders the items of a modelled list. -/
def pyStrItems : List PyVal → List String
  | [] => []
  | v :: rest => pyStr v :: pyStrItems rest

end

/-- `d.get(k)` on the modelled dictionary. -/
def assocGet (k : String) (d : List (String × PyVal)) : Option PyVal :=
  (d.find? (fun p => p.1 == k)).map (fun p => p.2)

/-- `k in d` on the modelled dictionary. -/
def assocContains (k : String) (d : List (String × PyVal)) : Bool :=
  (assocGet k d).isSome

/-! ### Circuit breaker (`skill_engine/resilience.py`)

Timestamps (`time.time()` values) are modelled as rationals supplied by the
caller of each operation. -/

/-- `CircuitBreakerConfig` from `resilience.py` (defaults 5 / 30 / 1). -/
structure CircuitBreakerConfig where
  failureThreshold : Nat
  recoveryTimeoutSeconds : Rat
  halfOpenTrialRequests : Nat
deriving DecidableEq

/-- The source defaults: `failure_threshold = 5`, `recovery_timeout_seconds = 30`,
`half_open_trial_requests = 1`. -/
def CircuitBreakerConfig.default : CircuitBreakerConfig :=
  { failureThreshold := 5, recoveryTimeoutSeconds := 30, halfOpenTrialRequests := 1 }

/-- `CircuitState` from `resilience.py`. -/
structure CircuitState where
  failures : Nat
  openedAt : Option Rat
  halfOpen : Bool
deriving DecidableEq

/-- The dataclass defaults of `CircuitState`. -/
def CircuitState.initial : CircuitState :=
  { failures := 0, openedAt := Option.none, halfOpen := false }

/-- A `CircuitBreaker` instance: its configuration, its `_state`, and the
`_half_open_trials` counter. -/
structure CircuitBreaker where
  cfg : CircuitBreakerConfig
  state : CircuitState
  halfOpenTrials : Nat
deriving DecidableEq

/-- `CircuitBreaker.__init__`: fresh breaker with default state. -/
def CircuitBreaker.fresh (cfg : CircuitBreakerConfig) : CircuitBreaker :=
  { cfg := cfg, state := CircuitState.initial, halfOpenTrials := 0 }

/-- `CircuitBreaker.is_open`, which also performs the open → half-open
transition once the recovery timeout has elapsed; it returns the flag and the
(possibly mutated) breaker. -/
def CircuitBreaker.isOpen (b : CircuitBreaker) (now : Rat) : Bool × CircuitBreaker :=
  match b.state.openedAt with
  | Option.none => (false, b)
  | some t =>
      if b.cfg.recoveryTimeoutSeconds ≤ now - t then
        (false, { b with state := { b.state with halfOpen := true, openedAt := Option.none },
                         halfOpenTrials := 0 })
      else
        (true, b)

/-- The two ways `before_call` can raise `CircuitOpen`. -/
inductive CircuitOpenE where
  | isOpenNow
  | trialLimit
deriving DecidableEq

/-- `CircuitBreaker.before_call`: consult `is_open`, then enforce the
half-open trial budget.  The first component is `some e` when the call raises
`CircuitOpen`; the second is the breaker after any mutation performed before
the raise (the open → half-open transition inside `is_open` persists even when
the trial budget then rejects the call). -/
def CircuitBreaker.beforeCall (b : CircuitBreaker) (now : Rat) :
    Option CircuitOpenE × CircuitBreaker :=
  match b.isOpen now with
  | (true, b1) => (some .isOpenNow, b1)
  | (false, b1) =>
      if b1.state.halfOpen then
        if b1.cfg.halfOpenTrialRequests ≤ b1.halfOpenTrials then
          (some .trialLimit, b1)
        else
          (Option.none, { b1 with halfOpenTrials := b1.halfOpenTrials + 1 })
      else
        (Option.none, b1)

/-- `CircuitBreaker.on_success`: reset to a fresh closed state. -/
def CircuitBreaker.onSuccess (b : CircuitBreaker) : CircuitBreaker :=
  { b with state := CircuitState.initial, halfOpenTrials := 0 }

/-- `CircuitBreaker.on_failure`: increment the failure counter and open the
circuit when the threshold is reached. -/
def CircuitBreaker.onFailure (b : CircuitBreaker) (now : Rat) : CircuitBreaker :=
  let f := b.state.failures + 1
  if b.cfg.failureThreshold ≤ f then
    { b with state := { failures := f, openedAt := some now, halfOpen := false },
             halfOpenTrials := 0 }
  else
    { b with state := { b.state with failures := f } }

/-! ### `safe_invoke` (`skill_engine/skill_base.py`)

The outcome of each underlying skill execution (success, wall-clock timeout of
the thread-pool future, or a raised exception) is supplied by an oracle
`attempts : Nat → AttemptOutcome`, indexed by the 1-based attempt counter.
The invocation timestamp `now` plays the role of `time.time()` for the breaker
transitions performed during this call. -/

/-- The per-skill `SLA` dataclass (timeout, retries); whether a breaker is
configured is captured by the `Option CircuitBreaker` argument of
`safeInvoke`, mirroring the `breaker is not None` tests in the source. -/
structure SLA where
  timeoutSeconds : Rat
  retries : Nat
deriving DecidableEq

/-- What a single execution of the underlying skill call does. -/
inductive AttemptOutcome where
  | success (out : PyVal)
  | timeout
  | exc (msg : String)

/-- Whether an attempt outcome is the timeout or exception case. -/
def isFailure : AttemptOutcome → Bool
  | .success _ => false
  | .timeout => true
  | .exc _ => true

/-- The exception `safe_invoke` finally raises to its caller. -/
inductive InvokeErr where
  | circuitOpen
  | timedOut
  | exception (msg : String)
deriving DecidableEq

/-- Result of one `safe_invoke` call: the returned output or raised exception,
the breaker state afterwards, how many times the underlying skill was actually
executed, and how many loop attempts were entered. -/
structure InvokeOutcome where
  result : Except InvokeErr PyVal
  breaker : Option CircuitBreaker
  calls : Nat
  attemptsUsed : Nat

/-- The `while attempt < max(1, sla.retries)` loop of `safe_invoke`.
`fuel` is the number of attempts still admissible, `attempt` the attempts
already entered, `calls` the underlying executions so far and `lastExc` the
`last_exc` variable.  A breaker failure (or an open circuit) breaks out of the
loop, after which the recorded exception is raised; without a breaker the loop
retries while attempts remain. -/
def safeInvokeLoop (attempts : Nat → AttemptOutcome) (now : Rat) :
    Nat → Nat → Option CircuitBreaker → Nat → Option InvokeErr → InvokeOutcome
  | 0, attempt, br, calls, lastExc =>
      { result := .error (lastExc.getD (.exception "Skill invocation failed without exception")),
        breaker := br, calls := calls, attemptsUsed := attempt }
  | fuel + 1, attempt, br, calls, _lastExc =>
      match br with
      | some b =>
          match b.beforeCall now with
          | (some _, b1) =>
              { result := .error .circuitOpen, breaker := some b1,
                calls := calls, attemptsUsed := attempt + 1 }
          | (Option.none, b1) =>
              match attempts (attempt + 1) with
              | .success v =>
                  { result := .ok v, breaker := some b1.onSuccess,
                    calls := calls + 1, attemptsUsed := attempt + 1 }
              | .timeout =>
                  { result := .error .timedOut, breaker := some (b1.onFailure now),
                    calls := calls + 1, attemptsUsed := attempt + 1 }
              | .exc m =>
                  { result := .error (.exception m), breaker := some (b1.onFailure now),
                    calls := calls + 1, attemptsUsed := attempt + 1 }
      | Option.none =>
          match attempts (attempt + 1) with
          | .success v =>
              { result := .ok v, breaker := Option.none,
                calls := calls + 1, attemptsUsed := attempt + 1 }
          | .timeout =>
              safeInvokeLoop attempts now fuel (attempt + 1) Option.none (calls + 1)
                (some .timedOut)
          | .exc m =>
              safeInvokeLoop attempts now fuel (attempt + 1) Option.none (calls + 1)
                (some (.exception m))

/-- `safe_invoke`: run the attempt loop with the bound `max(1, sla.retries)`. -/
def safeInvoke (sla : SLA) (attempts : Nat → AttemptOutcome)
    (breaker0 : Option CircuitBreaker) (now : Rat) : InvokeOutcome :=
  safeInvokeLoop attempts now (max 1 sla.retries) 0 breaker0 0 Option.none

/-- With a breaker configured, `safe_invoke` is fully determined by the first
attempt: `before_call` either rejects the call, or the single execution's
outcome ends the loop (success returns, failure breaks). -/
lemma safeInvoke_breaker_first (sla : SLA) (att : Nat → AttemptOutcome)
    (b : CircuitBreaker) (now : Rat) :
    safeInvoke sla att (some b) now =
      match b.beforeCall now with
      | (some _, b1) =>
          { result := .error .circuitOpen, breaker := some b1, calls := 0, attemptsUsed := 1 }
      | (Option.none, b1) =>
          match att 1 with
          | .success v =>
              { result := .ok v, breaker := some b1.onSuccess, calls := 1, attemptsUsed := 1 }
          | .timeout =>
              { result := .error .timedOut, breaker := some (b1.onFailure now),
                calls := 1, attemptsUsed := 1 }
          | .exc m =>
              { result := .error (.exception m), breaker := some (b1.onFailure now),
                calls := 1, attemptsUsed := 1 } := by
  obtain ⟨k, hk⟩ : ∃ k, max 1 sla.retries = k + 1 :=
    ⟨max 1 sla.retries - 1, by omega⟩
  unfold safeInvoke
  rw [hk]
  rfl

/-- The attempt counter never decreases below its entry value. -/
lemma safeInvokeLoop_attempt_le (att : Nat → AttemptOutcome) (now : Rat) :
    ∀ (fuel attempt : Nat) (br : Option CircuitBreaker) (calls : Nat)
      (lastExc : Option InvokeErr),
      attempt ≤ (safeInvokeLoop att now fuel attempt br calls lastExc).attemptsUsed := by
  intro fuel
  induction fuel with
  | zero => intro attempt br calls lastExc; simp [safeInvokeLoop]
  | succ n ih =>
      intro attempt br calls lastExc
      match br with
      | some b =>
          simp only [safeInvokeLoop]
          rcases hbc : b.beforeCall now with ⟨e, b1⟩
          cases e with
          | none => cases att (attempt + 1) <;> simp
          | some e => simp
      | Option.none =>
          simp only [safeInvokeLoop]
          cases att (attempt + 1) with
          | success v => simp
          | timeout => exact le_trans (by omega) (ih (attempt + 1) Option.none (calls + 1) _)
          | exc m => exact le_trans (by omega) (ih (attempt + 1) Option.none (calls + 1) _)

/-- With at least one admissible attempt, at least one attempt is entered. -/
lemma safeInvokeLoop_enters (att : Nat → AttemptOutcome) (now : Rat)
    (fuel attempt : Nat) (br : Option CircuitBreaker) (calls : Nat)
    (lastExc : Option InvokeErr) (hf : 1 ≤ fuel) :
    attempt + 1 ≤ (safeInvokeLoop att now fuel attempt br calls lastExc).attemptsUsed := by
  obtain ⟨n, rfl⟩ : ∃ n, fuel = n + 1 := ⟨fuel - 1, by omega⟩
  match br with
  | some b =>
      simp only [safeInvokeLoop]
      rcases hbc : b.beforeCall now with ⟨e, b1⟩
      cases e with
      | none => cases att (attempt + 1) <;> simp
      | some e => simp
  | Option.none =>
      simp only [safeInvokeLoop]
      cases att (attempt + 1) with
      | success v => simp
      | timeout => exact safeInvokeLoop_attempt_le att now n (attempt + 1) Option.none (calls + 1) _
      | exc m => exact safeInvokeLoop_attempt_le att now n (attempt + 1) Option.none (calls + 1) _

/-- Attempts and underlying executions are bounded by the loop fuel. -/
lemma safeInvokeLoop_bounds (att : Nat → AttemptOutcome) (now : Rat) :
    ∀ (fuel attempt : Nat) (br : Option CircuitBreaker) (calls : Nat)
      (lastExc : Option InvokeErr), calls ≤ attempt →
      (safeInvokeLoop att now fuel attempt br calls lastExc).attemptsUsed ≤ attempt + fuel ∧
      (safeInvokeLoop att now fuel attempt br calls lastExc).calls ≤
        (safeInvokeLoop att now fuel attempt br calls lastExc).attemptsUsed := by
  intro fuel
  induction fuel with
  | zero => intro attempt br calls lastExc h; simp [safeInvokeLoop]; omega
  | succ n ih =>
      intro attempt br calls lastExc h
      match br with
      | some b =>
          simp only [safeInvokeLoop]
          rcases hbc : b.beforeCall now with ⟨e, b1⟩
          cases e with
          | none => cases att (attempt + 1) <;> simp <;> omega
          | some e => simp; omega
      | Option.none =>
          simp only [safeInvokeLoop]
          cases att (attempt + 1) with
          | success v => simp; omega
          | timeout =>
              have h2 := ih (attempt + 1) Option.none (calls + 1) (some .timedOut) (by omega)
              exact ⟨le_trans h2.1 (le_of_eq (by omega)), h2.2⟩
          | exc m =>
              have h2 := ih (attempt + 1) Option.none (calls + 1) (some (.exception m)) (by omega)
              exact ⟨le_trans h2.1 (le_of_eq (by omega)), h2.2⟩

/-- C4: in `safe_invoke`, attempts are bounded by `max(1, SLA.retries)` (and
the underlying skill runs at most once per attempt); if a circuit breaker is
configured and admits the call, a first attempt ending in timeout or exception
records the failure on the breaker and stops retrying — exactly one underlying
execution and one attempt happen, and the call raises — while without a
breaker a further retry attempt proceeds whenever attempts remain. -/
theorem C4_safe_invoke_retry_policy :
    (∀ (sla : SLA) (att : Nat → AttemptOutcome) (br0 : Option CircuitBreaker) (now : Rat),
        (safeInvoke sla att br0 now).attemptsUsed ≤ max 1 sla.retries ∧
        (safeInvoke sla att br0 now).calls ≤ (safeInvoke sla att br0 now).attemptsUsed) ∧
    (∀ (sla : SLA) (att : Nat → AttemptOutcome) (b b1 : CircuitBreaker) (now : Rat),
        b.beforeCall now = (Option.none, b1) → isFailure (att 1) = true →
        (safeInvoke sla att (some b) now).calls = 1 ∧
        (safeInvoke sla att (some b) now).attemptsUsed = 1 ∧
        (safeInvoke sla att (some b) now).breaker = some (b1.onFailure now) ∧
        ∃ e, (safeInvoke sla att (some b) now).result = .error e) ∧
    (∀ (sla : SLA) (att : Nat → AttemptOutcome) (now : Rat),
        2 ≤ sla.retries → isFailure (att 1) = true →
        2 ≤ (safeInvoke sla att Option.none now).attemptsUsed) := by
  refine ⟨?_, ?_, ?_⟩
  · intro sla att br0 now
    have h := safeInvokeLoop_bounds att now (max 1 sla.retries) 0 br0 0 Option.none (le_refl 0)
    exact ⟨le_trans h.1 (le_of_eq (Nat.zero_add _)), h.2⟩
  · intro sla att b b1 now hbc hfail
    rw [safeInvoke_breaker_first, hbc]
    cases hatt : att 1 with
    | success v => rw [hatt] at hfail; simp [isFailure] at hfail
    | timeout => exact ⟨rfl, rfl, rfl, .timedOut, rfl⟩
    | exc m => exact ⟨rfl, rfl, rfl, .exception m, rfl⟩
  · intro sla att now hr hfail
    obtain ⟨k, hk⟩ : ∃ k, max 1 sla.retries = k + 2 := ⟨sla.retries - 2, by omega⟩
    unfold safeInvoke
    rw [hk]
    simp only [safeInvokeLoop]
    cases hatt : att 1 with
    | success v => rw [hatt] at hfail; simp [isFailure] at hfail
    | timeout =>
        exact safeInvokeLoop_enters att now (k + 1) 1 Option.none 1 (some .timedOut) (by omega)
    | exc m =>
        exact safeInvokeLoop_enters att now (k + 1) 1 Option.none 1 (some (.exception m))
          (by omega)

/-- C4 witness: with retries 3 and no breaker a failing first attempt is
retried; with a breaker it is not, and attempts never exceed the bound. -/
theorem C4_safe_invoke_retry_policy_witness :
    ((CircuitBreaker.fresh CircuitBreakerConfig.default).beforeCall 0 =
        (Option.none, CircuitBreaker.fresh CircuitBreakerConfig.default)) ∧
    isFailure (AttemptOutcome.exc "boom") = true ∧
    (safeInvoke { timeoutSeconds := 30, retries := 3 } (fun _ => .exc "boom")
        (some (CircuitBreaker.fresh CircuitBreakerConfig.default)) 0).calls = 1 ∧
    2 ≤ (safeInvoke { timeoutSeconds := 30, retries := 3 } (fun _ => .exc "boom")
        Option.none 0).attemptsUsed := by
  refine ⟨by decide, by decide, ?_, ?_⟩
  · exact (C4_safe_invoke_retry_policy.2.1 { timeoutSeconds := 30, retries := 3 }
      (fun _ => .exc "boom") (CircuitBreaker.fresh CircuitBreakerConfig.default)
      (CircuitBreaker.fresh CircuitBreakerConfig.default) 0 (by decide) (by decide)).1
  · exact C4_safe_invoke_retry_policy.2.2 { timeoutSeconds := 30, retries := 3 }
      (fun _ => .exc "boom") 0 (by decide) (by decide)

/-- C3: with `failure_threshold = 2`, two consecutive failing invocations on
the same key open the circuit, and a third invocation made before the recovery
timeout elapses raises `CircuitOpen` from `before_call` without the underlying
skill ever being executed on that invocation. -/
theorem C3_circuit_breaker_fail_fast
    (cfg : CircuitBreakerConfig) (sla : SLA)
    (att1 att2 att3 : Nat → AttemptOutcome) (t1 t2 t3 : Rat)
    (hth : cfg.failureThreshold = 2)
    (h1 : isFailure (att1 1) = true) (h2 : isFailure (att2 1) = true)
    (h3 : t3 - t2 < cfg.recoveryTimeoutSeconds) :
    ((safeInvoke sla att3
        (safeInvoke sla att2
          (safeInvoke sla att1 (some (CircuitBreaker.fresh cfg)) t1).breaker t2).breaker
        t3).result = .error .circuitOpen) ∧
    ((safeInvoke sla att3
        (safeInvoke sla att2
          (safeInvoke sla att1 (some (CircuitBreaker.fresh cfg)) t1).breaker t2).breaker
        t3).calls = 0) := by
  have hb0 : (CircuitBreaker.fresh cfg).beforeCall t1 =
      (Option.none, CircuitBreaker.fresh cfg) := by
    simp [CircuitBreaker.beforeCall, CircuitBreaker.isOpen, CircuitBreaker.fresh,
      CircuitState.initial]
  have hbA : (safeInvoke sla att1 (some (CircuitBreaker.fresh cfg)) t1).breaker =
      some ((CircuitBreaker.fresh cfg).onFailure t1) := by
    rw [safeInvoke_breaker_first, hb0]
    cases hatt : att1 1 with
    | success v => rw [hatt] at h1; simp [isFailure] at h1
    | timeout => rfl
    | exc m => rfl
  have hAval : (CircuitBreaker.fresh cfg).onFailure t1 =
      { cfg := cfg, state := { failures := 1, openedAt := Option.none, halfOpen := false },
        halfOpenTrials := 0 } := by
    simp [CircuitBreaker.onFailure, CircuitBreaker.fresh, CircuitState.initial, hth]
  set bA : CircuitBreaker :=
    { cfg := cfg, state := { failures := 1, openedAt := Option.none, halfOpen := false },
      halfOpenTrials := 0 } with hbAdef
  have hbAcall : bA.beforeCall t2 = (Option.none, bA) := by
    simp [CircuitBreaker.beforeCall, CircuitBreaker.isOpen, hbAdef]
  have hbB : (safeInvoke sla att2
      (safeInvoke sla att1 (some (CircuitBreaker.fresh cfg)) t1).breaker t2).breaker =
      some (bA.onFailure t2) := by
    rw [hbA, hAval, safeInvoke_breaker_first, hbAcall]
    cases hatt : att2 1 with
    | success v => rw [hatt] at h2; simp [isFailure] at h2
    | timeout => rfl
    | exc m => rfl
  have hBval : bA.onFailure t2 =
      { cfg := cfg, state := { failures := 2, openedAt := some t2, halfOpen := false },
        halfOpenTrials := 0 } := by
    simp [CircuitBreaker.onFailure, hbAdef, hth]
  set bB : CircuitBreaker :=
    { cfg := cfg, state := { failures := 2, openedAt := some t2, halfOpen := false },
      halfOpenTrials := 0 } with hbBdef
  have hbBcall : bB.beforeCall t3 = (some .isOpenNow, bB) := by
    simp [CircuitBreaker.beforeCall, CircuitBreaker.isOpen, hbBdef, not_le.mpr h3]
  rw [hbB, hBval, safeInvoke_breaker_first, hbBcall]
  exact ⟨rfl, rfl⟩

/-- C3 witness: concrete two failures then an immediate rejected third call. -/
theorem C3_circuit_breaker_fail_fast_witness :
    ({ failureThreshold := 2, recoveryTimeoutSeconds := 30, halfOpenTrialRequests := 1 :
        CircuitBreakerConfig }.failureThreshold = 2) ∧
    isFailure (AttemptOutcome.timeout) = true ∧
    ((2 : Rat) - 1 < 30) ∧
    ((safeInvoke { timeoutSeconds := 30, retries := 1 } (fun _ => .timeout)
        (safeInvoke { timeoutSeconds := 30, retries := 1 } (fun _ => .timeout)
          (safeInvoke { timeoutSeconds := 30, retries := 1 } (fun _ => .timeout)
            (some (CircuitBreaker.fresh
              { failureThreshold := 2, recoveryTimeoutSeconds := 30,
                halfOpenTrialRequests := 1 })) 0).breaker 1).breaker
        2).result = .error .circuitOpen) ∧
    ((safeInvoke { timeoutSeconds := 30, retries := 1 } (fun _ => .timeout)
        (safeInvoke { timeoutSeconds := 30, retries := 1 } (fun _ => .timeout)
          (safeInvoke { timeoutSeconds := 30, retries := 1 } (fun _ => .timeout)
            (some (CircuitBreaker.fresh
              { failureThreshold := 2, recoveryTimeoutSeconds := 30,
                halfOpenTrialRequests := 1 })) 0).breaker 1).breaker
        2).calls = 0) := by
  refine ⟨rfl, by decide, by norm_num, ?_⟩
  exact C3_circuit_breaker_fail_fast
    { failureThreshold := 2, recoveryTimeoutSeconds := 30, halfOpenTrialRequests := 1 }
    { timeoutSeconds := 30, retries := 1 }
    (fun _ => .timeout) (fun _ => .timeout) (fun _ => .timeout) 0 1 2
    rfl rfl rfl (by norm_num)

/-- C7: once the recovery timeout has elapsed after the circuit opened,
`before_call` admits exactly one trial (with the default budget of 1, a second
call before the trial resolves raises `CircuitOpen`), and a successful trial
resets the breaker to fully closed: zero consecutive failures and a cleared
`opened_at`. -/
theorem C7_circuit_breaker_recovery
    (b : CircuitBreaker) (t0 now : Rat)
    (hopen : b.state.openedAt = some t0)
    (htrial : b.cfg.halfOpenTrialRequests = 1)
    (helapsed : b.cfg.recoveryTimeoutSeconds ≤ now - t0) :
    ∃ b1 : CircuitBreaker,
      b.beforeCall now = (Option.none, b1) ∧
      b1.state.halfOpen = true ∧ b1.halfOpenTrials = 1 ∧
      b1.state.openedAt = Option.none ∧
      (∀ now2 : Rat, (b1.beforeCall now2).1 = some .trialLimit) ∧
      b1.onSuccess.state.failures = 0 ∧ b1.onSuccess.state.openedAt = Option.none ∧
      b1.onSuccess.state.halfOpen = false ∧ b1.onSuccess.halfOpenTrials = 0 := by
  refine Exists.intro
    { b with state := { b.state with halfOpen := true, openedAt := Option.none },
             halfOpenTrials := 1 } ?_
  refine ⟨?_, rfl, rfl, rfl, ?_, rfl, rfl, rfl, rfl⟩
  · simp [CircuitBreaker.beforeCall, CircuitBreaker.isOpen, hopen, helapsed, htrial]
  · intro now2
    simp [CircuitBreaker.beforeCall, CircuitBreaker.isOpen, htrial]

/-- C7 witness: a breaker opened at time 0 probed at time 30. -/
theorem C7_circuit_breaker_recovery_witness :
    ({ cfg := CircuitBreakerConfig.default,
        state := { failures := 5, openedAt := some 0, halfOpen := false },
        halfOpenTrials := 0 : CircuitBreaker }.state.openedAt = some 0) ∧
    (CircuitBreakerConfig.default.halfOpenTrialRequests = 1) ∧
    ((CircuitBreakerConfig.default.recoveryTimeoutSeconds : Rat) ≤ (30 : Rat) - 0) ∧
    (∃ b1 : CircuitBreaker,
      ({ cfg := CircuitBreakerConfig.default,
          state := { failures := 5, openedAt := some 0, halfOpen := false },
          halfOpenTrials := 0 : CircuitBreaker }.beforeCall 30 = (Option.none, b1)) ∧
      b1.state.halfOpen = true ∧ b1.halfOpenTrials = 1 ∧
      b1.state.openedAt = Option.none ∧
      (∀ now2 : Rat, (b1.beforeCall now2).1 = some .trialLimit) ∧
      b1.onSuccess.state.failures = 0 ∧ b1.onSuccess.state.openedAt = Option.none ∧
      b1.onSuccess.state.halfOpen = false ∧ b1.onSuccess.halfOpenTrials = 0) := by
  refine ⟨rfl, rfl, by norm_num [CircuitBreakerConfig.default], ?_⟩
  exact C7_circuit_breaker_recovery
    { cfg := CircuitBreakerConfig.default,
      state := { failures := 5, openedAt := some 0, halfOpen := false },
      halfOpenTrials := 0 } 0 30 rfl rfl
    (by norm_num [CircuitBreakerConfig.default])

/-! ### The `Agent.run` step loop (`skill_engine/agent.py`)

The loop is embedded as a step-indexed transition function over an explicit
run state, with the external collaborators supplied as oracles in a `RunEnv`:

* `route n` is what `self.router.route(query)` produces at step `n` (either a
  skill name with a parameter map — including the `params` default handling —
  or a raised exception);
* `dispatch n sk params` is the combined effect of the skill lookup, the
  `question_answering` fallback and `safe_invoke`: either a raised exception
  (including the not-found case) or the effective skill name (after the
  fallback), the effective parameter map and the returned output;
* `memAdd n` is the outcome of the un-wrapped `memory_facade.add` calls in
  the memory-search branch (the adds at lines 336-353 are inside a
  `try/except` that swallows failures and do not affect the result object, so
  they have no observable effect in the model);
* `recall` is the value `memory_facade.recall_context(task)` returns, or the
  exception it raises;
* `exc n` injects a truly unexpected engine-internal exception at the start
  of step `n` (modelling any raise point not covered above).

Step results and `AgentResult` bookkeeping mirror `skill_engine/domain.py`;
timing fields, which no claim constrains, are omitted. -/

/-- Truthiness of an optional Python string (None and the empty string are
falsy). -/
def strOptTruthy : Option String → Bool
  | some s => s != ""
  | Option.none => false

/-- Whether the first list is a prefix of the second. -/
def listPrefixEq : List Char → List Char → Bool
  | [], _ => true
  | _ :: _, [] => false
  | a :: as, b :: bs => a == b && listPrefixEq as bs

/-- Python `hay.startswith(pre)`. -/
def pyStartsWith (s pre : String) : Bool :=
  listPrefixEq pre.toList s.toList

/-- Occurrence of a character list at any position of another. -/
def listContainsSub (needle : List Char) : List Char → Bool
  | [] => needle.isEmpty
  | c :: rest => listPrefixEq needle (c :: rest) || listContainsSub needle rest

/-- Python `needle in hay` for strings. -/
def strContainsSub (hay needle : String) : Bool :=
  listContainsSub needle.toList hay.toList

/-- Python `s.strip()`: drop whitespace from both ends. -/
def pyStrip (s : String) : String :=
  String.mk (((s.toList.dropWhile Char.isWhitespace).reverse.dropWhile
    Char.isWhitespace).reverse)

/-- Python `a or b or ... or last` over the modelled values: the first truthy
operand, else the final operand. -/
def orTruthy : List PyVal → PyVal → PyVal
  | [], last => last
  | v :: rest, last => if pyTruthy v then v else orTruthy rest last

/-- `str(val)` when `isinstance(val, (str, int, float))`, else `None`. -/
def pyScalarStr : PyVal → Option String
  | .str s => some s
  | .int n => some (toString n)
  | _ => Option.none

/-- The key scan of `Agent._extract_answer_text`: the first key whose value is
a scalar wins. -/
def scanAnswerKeys : List String → List (String × PyVal) → Option String
  | [], _ => Option.none
  | k :: ks, d =>
      match assocGet k d with
      | some v =>
          match pyScalarStr v with
          | some s => some s
          | Option.none => scanAnswerKeys ks d
      | Option.none => scanAnswerKeys ks d

/-- `Agent._extract_answer_text`: `None` for a falsy observation (missing or
empty map), else the priority scan over `final_answer`, `summary`, `answer`,
`output`. -/
def extractAnswerText : Option (List (String × PyVal)) → Option String
  | Option.none => Option.none
  | some d =>
      if d.isEmpty then Option.none
      else scanAnswerKeys ["final_answer", "summary", "answer", "output"] d

mutual

/-- `Agent._replace_placeholders`: recurse into dictionaries and lists,
replacing exact `<LAST_RESULT>` string leaves with `last_result or ""`. -/
def replacePlaceholders (last : Option String) : PyVal → PyVal
  | .dict d => .dict (replacePlaceholdersEntries last d)
  | .list l => .list (replacePlaceholdersItems last l)
  | .str s => if s == "<LAST_RESULT>" then .str (last.getD "") else .str s
  | .int n => .int n
  | .none => .none

/-- Placeholder substitution over dictionary entries. -/
def replacePlaceholdersEntries (last : Option String) :
    List (String × PyVal) → List (String × PyVal)
  | [] => []
  | (k, v) :: rest => (k, replacePlaceholders last v) :: replacePlaceholdersEntries last rest

/-- Placeholder substitution over list items. -/
def replacePlaceholdersItems (last : Option String) : List PyVal → List PyVal
  | [] => []
  | v :: rest => replacePlaceholders last v :: replacePlaceholdersItems last rest

end

/-- `Agent._prepare_plan_inputs` (the deep copy is implicit in the functional
model).  Substitution always yields a map, so the `if not isinstance(params,
dict)` guard in `Agent.run` is unreachable and not modelled. -/
def prepareInputs (d : List (String × PyVal)) (last : Option String) :
    List (String × PyVal) :=
  replacePlaceholdersEntries last d

/-- `Agent._normalize_output`: a dictionary output (or a `SkillOutput` whose
payload is a dictionary, which the oracle reports as `PyVal.dict`) normalizes
to its map; any other output normalizes to `None`. -/
def normalizeOutput : PyVal → Option (List (String × PyVal))
  | .dict d => some d
  | _ => Option.none

/-- `StepResult` (`skill_engine/domain.py`), with the fields the claims
constrain; `step_id` is the step number and timing fields are omitted. -/
structure StepResultM where
  stepId : Nat
  success : Bool
  output : Option PyVal
  error : Option String

/-- `AgentResult` (`skill_engine/domain.py`) plus the metadata entries the
claims mention (`metadata["error"]`, `metadata["plan_used"]`,
`metadata["steps_taken"]`). -/
structure AgentResultM where
  status : String
  finalAnswer : Option String
  stepResults : List StepResultM
  stepsCompleted : Nat
  memoryUsed : Option String
  metadataError : Option String
  planUsed : Bool
  stepsTaken : Nat

/-- `AgentResult.add_step_result`: append the step result and count it when
successful. -/
def AgentResultM.addStepResult (r : AgentResultM) (sr : StepResultM) : AgentResultM :=
  { r with stepResults := r.stepResults ++ [sr],
           stepsCompleted := r.stepsCompleted + (if sr.success then 1 else 0) }

/-- The number of successful entries in a step-result list. -/
def countSucc (l : List StepResultM) : Nat :=
  l.countP (fun sr => sr.success)

/-- The local variables of the `Agent.run` loop together with the mutable
`AgentResult`. -/
structure RunState where
  query : String
  planIndex : Nat
  lastResult : Option String
  finalCandidate : Option String
  failureOccurred : Bool
  result : AgentResultM

/-- A `PlanStep` as consumed by the loop (identifier and description are
irrelevant to every claim). -/
structure PlanStepM where
  skillName : String
  inputData : List (String × PyVal)

/-- Outcome of the dispatch phase of one step (lookup, fallback and
`safe_invoke` combined). -/
inductive DispatchResult where
  | fail (msg : String)
  | ok (effSkill : String) (effParams : List (String × PyVal)) (output : PyVal)

/-- The oracles standing for the external collaborators of `Agent.run`. -/
structure RunEnv where
  route : Nat → Except String (String × List (String × PyVal))
  dispatch : Nat → String → List (String × PyVal) → DispatchResult
  memAdd : Nat → Except String Unit
  recallCtx : Except String String
  exc : Nat → Option String

/-- The match-filtering loop of the memory-search branch: skip non-dict
matches, non-string texts, texts equal to the normalized query and texts that
look like a previously serialized debug object; return the first remaining
trimmed text. -/
def findMatchText (queryClean : String) : List PyVal → Option String
  | [] => Option.none
  | m :: rest =>
      match m with
      | .dict md =>
          match assocGet "text" md with
          | some (.str txt) =>
              let clean := pyStrip txt
              if clean == queryClean then findMatchText queryClean rest
              else if pyStartsWith clean "\x7b" && strContainsSub clean "summary" then
                findMatchText queryClean rest
              else some clean
          | _ => findMatchText queryClean rest
      | _ => findMatchText queryClean rest

/-- The fallback to the first raw match: its untrimmed `text` value when the
first match is a dict with a string `text`. -/
def topMatchText : List PyVal → Option String
  | (.dict md) :: _ =>
      match assocGet "text" md with
      | some (.str s) => some s
      | _ => Option.none
  | _ => Option.none

/-- The fixed no-match answer of the memory-search branch. -/
def noMatchAnswer : String := "I could not find anything in memory that answers that."

/-- Control flow of one loop iteration: continue, break, or an exception
propagating to the top-level handler. -/
inductive StepFlow where
  | next (st : RunState)
  | halt (st : RunState)
  | raised (st : RunState) (msg : String)

/-- The run state carried by a flow outcome. -/
def stateOf : StepFlow → RunState
  | .next st => st
  | .halt st => st
  | .raised st _ => st

/-- The shared tail of every terminating branch: set `result.status` and
`result.final_answer`, then (when memory is enabled) populate
`result.memory_used` from `recall_context` — which is not wrapped in a
`try/except`, so its failure propagates to the top-level handler — and break. -/
def answerHalt (env : RunEnv) (enableMemory : Bool) (newStatus ans : String)
    (st : RunState) : StepFlow :=
  let r1 := { st.result with status := newStatus, finalAnswer := some ans }
  if enableMemory then
    match env.recallCtx with
    | .error m => .raised { st with result := r1 } m
    | .ok ctx => .halt { st with result := { r1 with memoryUsed := some ctx } }
  else
    .halt { st with result := r1 }

/-- The un-wrapped `memory_facade.add` calls guarding the terminating
memory-search branches (executed only when memory is enabled); a failure
propagates to the top-level handler. -/
def withMemAdd (env : RunEnv) (enableMemory : Bool) (stepNum : Nat) (st : RunState)
    (k : RunState → StepFlow) : StepFlow :=
  if enableMemory then
    match env.memAdd stepNum with
    | .error m => .raised st m
    | .ok _ => k st
  else
    k st

/-- Candidate-answer bookkeeping after a successful dispatch: a truthy
extracted answer becomes the final-answer candidate and the cached last
result; otherwise a plain string output becomes the cached last result. -/
def updateCandidates (st1 : RunState) (output : PyVal)
    (structuredObs : Option (List (String × PyVal))) (extracted : Option String) :
    RunState :=
  if strOptTruthy extracted then
    { st1 with finalCandidate := extracted, lastResult := extracted }
  else
    match structuredObs, output with
    | Option.none, .str s => { st1 with lastResult := some s }
    | _, _ => st1

/-- The memory-search termination branch (`skill_name == "memory_search"` with
a `matches` key present).  Returns either a terminating flow or the state to
fall through with.  Iterating a truthy non-list `matches` value raises a
`TypeError` in the source, modelled as a propagating exception. -/
def memorySearchFlow (env : RunEnv) (enableMemory : Bool) (stepNum : Nat)
    (isPlan planRemaining : Bool) (d : List (String × PyVal))
    (effParams : List (String × PyVal)) (st2 : RunState) : Sum StepFlow RunState :=
  match assocGet "matches" d with
  | Option.none => .inr st2
  | some v =>
      match (if pyTruthy v then
               (match v with
                | PyVal.list l => Except.ok l
                | _ => Except.error "TypeError: matches is not iterable")
             else Except.ok ([] : List PyVal)) with
      | .error m => .inl (.raised st2 m)
      | .ok ms =>
          let queryForSearch := orTruthy
            [(assocGet "query" effParams).getD PyVal.none,
             (assocGet "text" effParams).getD PyVal.none] (PyVal.str st2.query)
          let queryClean := pyStrip (pyStr queryForSearch)
          let answerText :=
            match findMatchText queryClean ms with
            | some s => some s
            | Option.none => topMatchText ms
          if strOptTruthy answerText then
            let s := answerText.getD ""
            let st3 := { st2 with lastResult := some s, finalCandidate := some s }
            if !(isPlan && planRemaining) then
              .inl (withMemAdd env enableMemory stepNum st3
                (answerHalt env enableMemory "success" s))
            else
              .inr st3
          else
            if !(isPlan && planRemaining) then
              .inl (withMemAdd env enableMemory stepNum st2
                (answerHalt env enableMemory "partial" noMatchAnswer))
            else
              .inr st2

/-- Guard of the memory-search branch: enter it only for the effective skill
`memory_search` with a normalized map containing `matches`; otherwise fall
through unchanged.  The step-level memory write (lines 335-353) is inside a
failure-swallowing `try/except` and does not affect the result object, so it
is not modelled. -/
def afterMemorySearch (env : RunEnv) (enableMemory : Bool) (stepNum : Nat)
    (isPlan planRemaining : Bool) (effSkill : String)
    (effParams : List (String × PyVal)) (obs : Option (List (String × PyVal)))
    (st2 : RunState) : Sum StepFlow RunState :=
  match obs with
  | some d =>
      if effSkill == "memory_search" && assocContains "matches" d then
        memorySearchFlow env enableMemory stepNum isPlan planRemaining d effParams st2
      else Sum.inr st2
  | Option.none => Sum.inr st2

/-- The body of one iteration after a successful dispatch: record the step
result, update candidates, then apply the termination checks in source order
(extracted answer first, then the memory-search branch, then the
plan-exhausted candidate branch), else continue with the stringified output as
the next working query. -/
def okBranch (env : RunEnv) (plan : List PlanStepM) (enableMemory planUsed : Bool)
    (stepNum : Nat) (st : RunState) (isPlan : Bool) (pi1 : Nat)
    (effSkill : String) (effParams : List (String × PyVal)) (output : PyVal) :
    StepFlow :=
  let sr : StepResultM :=
    { stepId := stepNum, success := true, output := some output, error := Option.none }
  let st1 := { st with result := st.result.addStepResult sr, planIndex := pi1 }
  let structuredObs := normalizeOutput output
  let extracted := extractAnswerText structuredObs
  let st2 := updateCandidates st1 output structuredObs extracted
  let planRemaining : Bool := decide (pi1 < plan.length)
  if strOptTruthy extracted && (!isPlan || !planRemaining) then
    answerHalt env enableMemory "success" (extracted.getD "") st2
  else
    match afterMemorySearch env enableMemory stepNum isPlan planRemaining effSkill
        effParams structuredObs st2 with
    | .inl flow => flow
    | .inr st3 =>
        if planUsed && !planRemaining && strOptTruthy st3.finalCandidate &&
            !(strOptTruthy st3.result.finalAnswer) then
          answerHalt env enableMemory "success" (st3.finalCandidate.getD "") st3
        else
          .next { st3 with query := pyStr output }

/-- Step-source resolution: the next unconsumed plan step (with placeholder
substitution and the plan index advanced), else the router. -/
def resolveSource (env : RunEnv) (plan : List PlanStepM) (stepNum : Nat)
    (st : RunState) : Except String (String × List (String × PyVal) × Nat) :=
  match plan.get? st.planIndex with
  | some ps => .ok (ps.skillName, prepareInputs ps.inputData st.lastResult, st.planIndex + 1)
  | Option.none =>
      match env.route stepNum with
      | .ok (sk, params) => .ok (sk, params, st.planIndex)
      | .error m => .error m

/-- One iteration of the `for step_num in range(1, max_steps + 1)` loop.  The
recorded error strings elide the interpolated skill name of the source
messages; no claim constrains the message text. -/
def stepBody (env : RunEnv) (plan : List PlanStepM) (enableMemory planUsed : Bool)
    (stepNum : Nat) (st : RunState) : StepFlow :=
  match env.exc stepNum with
  | some m => .raised st m
  | Option.none =>
      let isPlan : Bool := decide (st.planIndex < plan.length)
      match resolveSource env plan stepNum st with
      | .error m =>
          let sr : StepResultM :=
            { stepId := stepNum, success := false, output := Option.none,
              error := some ("Routing failed: " ++ m) }
          .halt { st with result := st.result.addStepResult sr, failureOccurred := true }
      | .ok (skName, params, pi1) =>
          match env.dispatch stepNum skName params with
          | .fail m =>
              let sr : StepResultM :=
                { stepId := stepNum, success := false, output := Option.none,
                  error := some ("Skill failed: " ++ m) }
              let st1 := { st with result := st.result.addStepResult sr,
                                   failureOccurred := true, planIndex := pi1 }
              if isPlan && decide (pi1 < plan.length) then .next st1 else .halt st1
          | .ok effSkill effParams output =>
              okBranch env plan enableMemory planUsed stepNum st isPlan pi1
                effSkill effParams output

/-- The bounded loop: run up to `fuel` iterations starting at step number
`stepNum`, stopping on a break or propagating exception. -/
def runSteps (env : RunEnv) (plan : List PlanStepM) (enableMemory planUsed : Bool) :
    Nat → Nat → RunState → Except (RunState × String) RunState
  | 0, _, st => .ok st
  | fuel + 1, stepNum, st =>
      match stepBody env plan enableMemory planUsed stepNum st with
      | .raised st1 m => .error (st1, m)
      | .halt st1 => .ok st1
      | .next st1 => runSteps env plan enableMemory planUsed fuel (stepNum + 1) st1

/-- The post-loop fixup (lines 471-481): a still-`failed` status becomes
`success` or `partial` depending on the candidate answer and whether a failure
occurred, with `final_answer` left unset in the no-candidate case, and
`memory_used` populated when memory is enabled (again via the un-wrapped
`recall_context`). -/
def postLoop (env : RunEnv) (enableMemory : Bool) (st : RunState) :
    Except (RunState × String) RunState :=
  if st.result.status == "failed" then
    if strOptTruthy st.finalCandidate then
      let newStatus := if st.failureOccurred then "partial" else "success"
      let r1 := { st.result with status := newStatus, finalAnswer := st.finalCandidate }
      if enableMemory then
        match env.recallCtx with
        | .error m => .error ({ st with result := r1 }, m)
        | .ok ctx => .ok { st with result := { r1 with memoryUsed := some ctx } }
      else .ok { st with result := r1 }
    else
      let r1 := { st.result with status := "partial", finalAnswer := Option.none }
      if enableMemory then
        match env.recallCtx with
        | .error m => .error ({ st with result := r1 }, m)
        | .ok ctx => .ok { st with result := { r1 with memoryUsed := some ctx } }
      else .ok { st with result := r1 }
  else
    .ok st

/-- The `AgentResult(plan_id=..., status="failed")` created before the loop,
with the metadata recorded up front. -/
def initialResult (planUsed : Bool) : AgentResultM :=
  { status := "failed", finalAnswer := Option.none, stepResults := [],
    stepsCompleted := 0, memoryUsed := Option.none, metadataError := Option.none,
    planUsed := planUsed, stepsTaken := 0 }

/-- The loop state as of entering the first iteration. -/
def initialState (task : String) (planUsed : Bool) : RunState :=
  { query := task, planIndex := 0, lastResult := Option.none,
    finalCandidate := Option.none, failureOccurred := false,
    result := initialResult planUsed }

/-- The top-level `except` handler: `status = "failed"`, `final_answer =
None`, and the exception text in `metadata["error"]`. -/
def applyHandler (st : RunState) (m : String) : RunState :=
  { st with result :=
      { st.result with status := "failed", finalAnswer := Option.none,
                       metadataError := some m } }

/-- The `finally` block: record `metadata["steps_taken"]` (the length of the
step-result trace; the local list and `result.step_results` are appended in
lockstep on every path). -/
def finalize (st : RunState) : AgentResultM :=
  { st.result with stepsTaken := st.result.stepResults.length }

/-- The body of the top-level `try` block from an arbitrary in-loop state: the
step loop followed by the post-loop fixup, with a propagating exception
reported as the error case. -/
def agentRunRawFrom (env : RunEnv) (plan : List PlanStepM) (enableMemory planUsed : Bool)
    (fuel stepNum : Nat) (st : RunState) : Except (RunState × String) RunState :=
  (runSteps env plan enableMemory planUsed fuel stepNum st).bind
    (postLoop env enableMemory)

/-- Run the loop and the post-loop fixup from an arbitrary in-loop state, then
apply the top-level handler and the `finally` block.  `Agent.run` is this
function started at the initial state. -/
def agentRunFrom (env : RunEnv) (plan : List PlanStepM) (enableMemory planUsed : Bool)
    (fuel stepNum : Nat) (st : RunState) : AgentResultM :=
  match agentRunRawFrom env plan enableMemory planUsed fuel stepNum st with
  | .ok st1 => finalize st1
  | .error (st1, m) => finalize (applyHandler st1 m)

/-- `Agent.run(task, max_steps=maxSteps)` with the planner-produced plan and
the memory flag as inputs: always returns a structured `AgentResultM`. -/
def agentRun (env : RunEnv) (plan : List PlanStepM) (enableMemory : Bool)
    (maxSteps : Nat) (task : String) : AgentResultM :=
  agentRunFrom env plan enableMemory (!plan.isEmpty) maxSteps 1
    (initialState task (!plan.isEmpty))

/-- The run state carried by either side of the loop computation. -/
def exitState : Except (RunState × String) RunState → RunState
  | .ok st => st
  | .error e => e.1

/-- The run state carried by either side of the memory-search branch result. -/
def sumState : Sum StepFlow RunState → RunState
  | .inl f => stateOf f
  | .inr s => s

/-- Two run states whose result traces agree (step results, success count and
recorded metadata error). -/
def resultShapeEq (a b : RunState) : Prop :=
  b.result.stepResults = a.result.stepResults ∧
  b.result.stepsCompleted = a.result.stepsCompleted ∧
  b.result.metadataError = a.result.metadataError

lemma resultShapeEq_refl (a : RunState) : resultShapeEq a a := ⟨rfl, rfl, rfl⟩

lemma resultShapeEq_trans {a b c : RunState} (h1 : resultShapeEq a b)
    (h2 : resultShapeEq b c) : resultShapeEq a c :=
  ⟨h2.1.trans h1.1, h2.2.1.trans h1.2.1, h2.2.2.trans h1.2.2⟩

lemma answerHalt_shape (env : RunEnv) (em : Bool) (ns ans : String) (st : RunState) :
    resultShapeEq st (stateOf (answerHalt env em ns ans st)) := by
  unfold answerHalt
  split
  · split
    · exact ⟨rfl, rfl, rfl⟩
    · exact ⟨rfl, rfl, rfl⟩
  · exact ⟨rfl, rfl, rfl⟩

lemma withMemAdd_shape (env : RunEnv) (em : Bool) (n : Nat) (st : RunState)
    (k : RunState → StepFlow) (hk : ∀ s, resultShapeEq s (stateOf (k s))) :
    resultShapeEq st (stateOf (withMemAdd env em n st k)) := by
  unfold withMemAdd
  split
  · split
    · exact ⟨rfl, rfl, rfl⟩
    · exact hk st
  · exact hk st

lemma updateCandidates_shape (st1 : RunState) (output : PyVal)
    (obs : Option (List (String × PyVal))) (ex : Option String) :
    resultShapeEq st1 (updateCandidates st1 output obs ex) := by
  unfold updateCandidates
  split
  · exact ⟨rfl, rfl, rfl⟩
  · split
    · exact ⟨rfl, rfl, rfl⟩
    · exact ⟨rfl, rfl, rfl⟩

lemma updateCandidates_result (st1 : RunState) (output : PyVal)
    (obs : Option (List (String × PyVal))) (ex : Option String) :
    (updateCandidates st1 output obs ex).result = st1.result := by
  unfold updateCandidates
  repeat' split
  all_goals rfl

lemma memorySearchFlow_shape (env : RunEnv) (em : Bool) (n : Nat)
    (isPlan planRem : Bool) (d : List (String × PyVal))
    (effParams : List (String × PyVal)) (st2 : RunState) :
    resultShapeEq st2 (sumState (memorySearchFlow env em n isPlan planRem d effParams st2)) := by
  unfold memorySearchFlow
  dsimp only
  repeat' split
  all_goals
    first
      | exact ⟨rfl, rfl, rfl⟩
      | exact withMemAdd_shape env em n _ _ (fun s => answerHalt_shape env em _ _ s)

lemma afterMemorySearch_shape (env : RunEnv) (em : Bool) (n : Nat)
    (isPlan planRem : Bool) (eff : String) (effParams : List (String × PyVal))
    (obs : Option (List (String × PyVal))) (st2 : RunState) :
    resultShapeEq st2
      (sumState (afterMemorySearch env em n isPlan planRem eff effParams obs st2)) := by
  unfold afterMemorySearch
  cases obs with
  | none => exact ⟨rfl, rfl, rfl⟩
  | some d =>
      dsimp only
      split
      · exact memorySearchFlow_shape env em n isPlan planRem d effParams st2
      · exact ⟨rfl, rfl, rfl⟩

lemma okBranch_shape (env : RunEnv) (plan : List PlanStepM) (em pu : Bool)
    (n : Nat) (st : RunState) (isPlan : Bool) (pi1 : Nat) (eff : String)
    (effParams : List (String × PyVal)) (output : PyVal) :
    resultShapeEq
      { st with
        result := st.result.addStepResult
            { stepId := n, success := true, output := some output, error := Option.none },
        planIndex := pi1 }
      (stateOf (okBranch env plan em pu n st isPlan pi1 eff effParams output)) := by
  unfold okBranch
  dsimp only
  refine resultShapeEq_trans
    (updateCandidates_shape _ output (normalizeOutput output)
      (extractAnswerText (normalizeOutput output))) ?_
  split
  · exact answerHalt_shape env em _ _ _
  · have h := afterMemorySearch_shape env em n isPlan (decide (pi1 < plan.length))
      eff effParams (normalizeOutput output)
      (updateCandidates
        { st with
          result := st.result.addStepResult
              { stepId := n, success := true, output := some output, error := Option.none },
          planIndex := pi1 }
        output (normalizeOutput output) (extractAnswerText (normalizeOutput output)))
    split
    case _ flow heq =>
        rw [heq] at h
        exact h
    case _ st3 heq =>
        rw [heq] at h
        split
        · exact resultShapeEq_trans h (answerHalt_shape env em _ _ _)
        · exact resultShapeEq_trans h ⟨rfl, rfl, rfl⟩

lemma countSucc_append (l1 l2 : List StepResultM) :
    countSucc (l1 ++ l2) = countSucc l1 + countSucc l2 := by
  simp [countSucc, List.countP_append]

/-- One loop iteration appends at most one step result, counts it exactly when
successful, and leaves the recorded metadata error unchanged — on every flow
outcome, the exception case included. -/
lemma stepBody_trace (env : RunEnv) (plan : List PlanStepM) (em pu : Bool)
    (n : Nat) (st : RunState) :
    ∃ added : List StepResultM,
      added.length ≤ 1 ∧
      (stateOf (stepBody env plan em pu n st)).result.stepResults
        = st.result.stepResults ++ added ∧
      (stateOf (stepBody env plan em pu n st)).result.stepsCompleted
        = st.result.stepsCompleted + countSucc added ∧
      (stateOf (stepBody env plan em pu n st)).result.metadataError
        = st.result.metadataError := by
  unfold stepBody
  cases env.exc n with
  | some m =>
      exact ⟨[], by simp, by simp [stateOf], by simp [stateOf, countSucc], rfl⟩
  | none =>
      dsimp only
      cases hres : resolveSource env plan n st with
      | error m =>
          refine ⟨[⟨n, false, Option.none, some ("Routing failed: " ++ m)⟩],
            by simp, ?_, ?_, rfl⟩
          · simp [stateOf, AgentResultM.addStepResult]
          · simp [stateOf, AgentResultM.addStepResult, countSucc]
      | ok trip =>
          obtain ⟨sk, params, pi1⟩ := trip
          dsimp only
          cases hdisp : env.dispatch n sk params with
          | fail m =>
              dsimp only
              refine ⟨[⟨n, false, Option.none, some ("Skill failed: " ++ m)⟩],
                by simp, ?_, ?_, ?_⟩
              · split <;> simp [stateOf, AgentResultM.addStepResult]
              · split <;> simp [stateOf, AgentResultM.addStepResult, countSucc]
              · split <;> rfl
          | ok eff effParams output =>
              dsimp only
              have h := okBranch_shape env plan em pu n st
                (decide (st.planIndex < plan.length)) pi1 eff effParams output
              refine ⟨[⟨n, true, some output, Option.none⟩], by simp, ?_, ?_, ?_⟩
              · rw [h.1]; simp [AgentResultM.addStepResult]
              · rw [h.2.1]; simp [AgentResultM.addStepResult, countSucc]
              · rw [h.2.2]; rfl

/-- The loop appends at most `fuel` step results and preserves the counting
invariant and the metadata error, whichever way it exits. -/
lemma runSteps_trace (env : RunEnv) (plan : List PlanStepM) (em pu : Bool) :
    ∀ (fuel n : Nat) (st : RunState),
      ∃ added : List StepResultM,
        added.length ≤ fuel ∧
        (exitState (runSteps env plan em pu fuel n st)).result.stepResults
          = st.result.stepResults ++ added ∧
        (exitState (runSteps env plan em pu fuel n st)).result.stepsCompleted
          = st.result.stepsCompleted + countSucc added ∧
        (exitState (runSteps env plan em pu fuel n st)).result.metadataError
          = st.result.metadataError := by
  intro fuel
  induction fuel with
  | zero =>
      intro n st
      exact ⟨[], by simp, by simp [runSteps, exitState], by simp [runSteps, exitState, countSucc],
        by simp [runSteps, exitState]⟩
  | succ k ih =>
      intro n st
      obtain ⟨a1, ha1, hsr1, hsc1, hme1⟩ := stepBody_trace env plan em pu n st
      simp only [runSteps]
      cases hsb : stepBody env plan em pu n st with
      | raised st1 m =>
          rw [hsb] at hsr1 hsc1 hme1
          simp only [stateOf] at hsr1 hsc1 hme1
          exact ⟨a1, by omega, hsr1, hsc1, hme1⟩
      | halt st1 =>
          rw [hsb] at hsr1 hsc1 hme1
          simp only [stateOf] at hsr1 hsc1 hme1
          exact ⟨a1, by omega, hsr1, hsc1, hme1⟩
      | next st1 =>
          rw [hsb] at hsr1 hsc1 hme1
          simp only [stateOf] at hsr1 hsc1 hme1
          obtain ⟨a2, ha2, hsr2, hsc2, hme2⟩ := ih (n + 1) st1
          refine ⟨a1 ++ a2, by simp; omega, ?_, ?_, ?_⟩
          · rw [hsr2, hsr1, List.append_assoc]
          · rw [hsc2, hsc1, countSucc_append]; omega
          · rw [hme2, hme1]

/-- The post-loop fixup leaves the trace untouched on both exits. -/
lemma postLoop_shape (env : RunEnv) (em : Bool) (st : RunState) :
    resultShapeEq st (exitState (postLoop env em st)) := by
  unfold postLoop
  repeat' split
  all_goals exact ⟨rfl, rfl, rfl⟩

/-- C2: for every run, at most `max_steps` step results are recorded and
`steps_completed` equals the number of successful entries of `step_results`;
moreover `AgentResult.add_step_result` preserves the counting invariant at
every application. -/
theorem C2_step_results_invariant :
    (∀ (env : RunEnv) (plan : List PlanStepM) (em : Bool) (ms : Nat) (task : String),
        (agentRun env plan em ms task).stepResults.length ≤ ms ∧
        (agentRun env plan em ms task).stepsCompleted =
          countSucc (agentRun env plan em ms task).stepResults) ∧
    (∀ (r : AgentResultM) (sr : StepResultM),
        r.stepsCompleted = countSucc r.stepResults →
        (r.addStepResult sr).stepsCompleted = countSucc (r.addStepResult sr).stepResults) := by
  constructor
  · intro env plan em ms task
    obtain ⟨added, hlen, hsr, hsc, _⟩ :=
      runSteps_trace env plan em (!plan.isEmpty) ms 1 (initialState task (!plan.isEmpty))
    have hinit_sr : (initialState task (!plan.isEmpty)).result.stepResults = [] := rfl
    have hinit_sc : (initialState task (!plan.isEmpty)).result.stepsCompleted = 0 := rfl
    simp only [hinit_sr, hinit_sc, List.nil_append, Nat.zero_add] at hsr hsc
    unfold agentRun agentRunFrom agentRunRawFrom
    cases hrs : runSteps env plan em (!plan.isEmpty) ms 1 (initialState task (!plan.isEmpty)) with
    | error e =>
        rw [hrs] at hsr hsc
        have hs1 : e.1.result.stepResults = added := hsr
        have hs2 : e.1.result.stepsCompleted = countSucc added := hsc
        simp only [Except.bind]
        constructor
        · show e.1.result.stepResults.length ≤ ms
          rw [hs1]; omega
        · show e.1.result.stepsCompleted = countSucc e.1.result.stepResults
          rw [hs1, hs2]
    | ok st1 =>
        rw [hrs] at hsr hsc
        have hs1 : st1.result.stepResults = added := hsr
        have hs2 : st1.result.stepsCompleted = countSucc added := hsc
        simp only [Except.bind]
        have hps := postLoop_shape env em st1
        cases hpl : postLoop env em st1 with
        | error e =>
            rw [hpl] at hps
            have hp1 : e.1.result.stepResults = st1.result.stepResults := hps.1
            have hp2 : e.1.result.stepsCompleted = st1.result.stepsCompleted := hps.2.1
            constructor
            · show e.1.result.stepResults.length ≤ ms
              rw [hp1, hs1]; omega
            · show e.1.result.stepsCompleted = countSucc e.1.result.stepResults
              rw [hp1, hp2, hs1, hs2]
        | ok st2 =>
            rw [hpl] at hps
            have hp1 : st2.result.stepResults = st1.result.stepResults := hps.1
            have hp2 : st2.result.stepsCompleted = st1.result.stepsCompleted := hps.2.1
            constructor
            · show st2.result.stepResults.length ≤ ms
              rw [hp1, hs1]; omega
            · show st2.result.stepsCompleted = countSucc st2.result.stepResults
              rw [hp1, hp2, hs1, hs2]
  · intro r sr h
    simp [AgentResultM.addStepResult, countSucc, List.countP_append, List.countP_cons, h]

/-- A terminal status set by a terminating branch of the loop or the
post-loop fixup. -/
def statusTerminal (s : String) : Prop :=
  s = "success" ∨ s = "partial"

/-- Well-formedness of the dispatch oracle for the memory-search branch: a
truthy `matches` value in a dispatched output map is an actual list — the
source would raise a `TypeError` when iterating anything else, which is an
engine-internal exception, not an ordinary skill failure. -/
def dispatchMatchesWF (env : RunEnv) : Prop :=
  ∀ (n : Nat) (sk : String) (p : List (String × PyVal)) (eff : String)
    (ep d : List (String × PyVal)) (v : PyVal),
    env.dispatch n sk p = .ok eff ep (.dict d) →
    assocGet "matches" d = some v → pyTruthy v = true → ∃ l, v = PyVal.list l

lemma answerHalt_ok (env : RunEnv) (em : Bool) (ns ans : String) (st : RunState)
    (hrec : em = true → ∃ r, env.recallCtx = .ok r) :
    ∃ st1, answerHalt env em ns ans st = .halt st1 ∧
      st1.result.status = ns ∧ st1.result.finalAnswer = some ans := by
  cases em with
  | false =>
      refine ⟨{ st with result :=
          { st.result with status := ns, finalAnswer := some ans } }, ?_, rfl, rfl⟩
      simp [answerHalt]
  | true =>
      obtain ⟨r, hr⟩ := hrec rfl
      refine ⟨{ st with result :=
          { st.result with
            status := ns
            finalAnswer := some ans
            memoryUsed := some r } }, ?_, rfl, rfl⟩
      simp [answerHalt, hr]

lemma withMemAdd_ok (env : RunEnv) (em : Bool) (n : Nat) (st : RunState)
    (k : RunState → StepFlow) (hmem : em = true → env.memAdd n = .ok ()) :
    withMemAdd env em n st k = k st := by
  cases em with
  | false => simp [withMemAdd]
  | true => simp [withMemAdd, hmem rfl]

lemma memorySearchFlow_ok (env : RunEnv) (em : Bool) (n : Nat)
    (isPlan planRem : Bool) (d : List (String × PyVal))
    (effParams : List (String × PyVal)) (st2 : RunState)
    (hmem : em = true → env.memAdd n = .ok ())
    (hrec : em = true → ∃ r, env.recallCtx = .ok r)
    (hwf : ∀ v, assocGet "matches" d = some v → pyTruthy v = true →
      ∃ l, v = PyVal.list l) :
    (∃ st1, memorySearchFlow env em n isPlan planRem d effParams st2 = .inl (.halt st1) ∧
      statusTerminal st1.result.status) ∨
    (∃ st3, memorySearchFlow env em n isPlan planRem d effParams st2 = .inr st3 ∧
      st3.result.status = st2.result.status) := by
  unfold memorySearchFlow
  cases hv : assocGet "matches" d with
  | none => exact Or.inr ⟨st2, rfl, rfl⟩
  | some v =>
      have hlist : (if pyTruthy v = true then
            (match v with
             | PyVal.list l => Except.ok l
             | _ => Except.error "TypeError: matches is not iterable")
          else Except.ok ([] : List PyVal)).isOk = true := by
        by_cases ht : pyTruthy v = true
        · obtain ⟨l, rfl⟩ := hwf v hv ht
          simp [ht, Except.isOk, Except.toBool]
        · simp [ht, Except.isOk, Except.toBool]
      dsimp only
      cases hm : (if pyTruthy v = true then
            (match v with
             | PyVal.list l => Except.ok l
             | _ => Except.error "TypeError: matches is not iterable")
          else Except.ok ([] : List PyVal)) with
      | error m => rw [hm] at hlist; simp [Except.isOk, Except.toBool] at hlist
      | ok ms =>
          dsimp only
          split
          · split
            · rw [withMemAdd_ok env em n _ _ hmem]
              obtain ⟨st1, heq, h1, h2⟩ := answerHalt_ok env em "success" _ _ hrec
              rw [heq]
              exact Or.inl ⟨st1, rfl, Or.inl h1⟩
            · exact Or.inr ⟨_, rfl, rfl⟩
          · split
            · rw [withMemAdd_ok env em n _ _ hmem]
              obtain ⟨st1, heq, h1, h2⟩ := answerHalt_ok env em "partial" _ _ hrec
              rw [heq]
              exact Or.inl ⟨st1, rfl, Or.inr h1⟩
            · exact Or.inr ⟨st2, rfl, rfl⟩

lemma afterMemorySearch_ok (env : RunEnv) (em : Bool) (n : Nat)
    (isPlan planRem : Bool) (eff : String) (effParams : List (String × PyVal))
    (obs : Option (List (String × PyVal))) (st2 : RunState)
    (hmem : em = true → env.memAdd n = .ok ())
    (hrec : em = true → ∃ r, env.recallCtx = .ok r)
    (hwf : ∀ d v, obs = some d → assocGet "matches" d = some v → pyTruthy v = true →
      ∃ l, v = PyVal.list l) :
    (∃ st1, afterMemorySearch env em n isPlan planRem eff effParams obs st2
        = .inl (.halt st1) ∧ statusTerminal st1.result.status) ∨
    (∃ st3, afterMemorySearch env em n isPlan planRem eff effParams obs st2 = .inr st3 ∧
      st3.result.status = st2.result.status) := by
  unfold afterMemorySearch
  cases obs with
  | none => exact Or.inr ⟨st2, rfl, rfl⟩
  | some d =>
      dsimp only
      split
      · exact memorySearchFlow_ok env em n isPlan planRem d effParams st2 hmem hrec
          (fun v hv ht => hwf d v rfl hv ht)
      · exact Or.inr ⟨st2, rfl, rfl⟩

lemma okBranch_ok (env : RunEnv) (plan : List PlanStepM) (em pu : Bool)
    (n : Nat) (st : RunState) (isPlan : Bool) (pi1 : Nat) (eff : String)
    (effParams : List (String × PyVal)) (output : PyVal)
    (hmem : em = true → env.memAdd n = .ok ())
    (hrec : em = true → ∃ r, env.recallCtx = .ok r)
    (hwf : ∀ d v, normalizeOutput output = some d → assocGet "matches" d = some v →
      pyTruthy v = true → ∃ l, v = PyVal.list l) :
    (∃ st1, okBranch env plan em pu n st isPlan pi1 eff effParams output = .halt st1 ∧
      statusTerminal st1.result.status) ∨
    (∃ st1, okBranch env plan em pu n st isPlan pi1 eff effParams output = .next st1 ∧
      st1.result.status = st.result.status) := by
  unfold okBranch
  dsimp only
  split
  · obtain ⟨st1, heq, h1, h2⟩ := answerHalt_ok env em "success" _ _ hrec
    rw [heq]
    exact Or.inl ⟨st1, rfl, Or.inl h1⟩
  · have h := afterMemorySearch_ok env em n isPlan (decide (pi1 < plan.length))
      eff effParams (normalizeOutput output)
      (updateCandidates
        { st with
          result := st.result.addStepResult
              { stepId := n, success := true, output := some output, error := Option.none },
          planIndex := pi1 }
        output (normalizeOutput output) (extractAnswerText (normalizeOutput output)))
      hmem hrec hwf
    rcases h with ⟨st1, heq, hterm⟩ | ⟨st3, heq, hst⟩
    · rw [heq]
      exact Or.inl ⟨st1, rfl, hterm⟩
    · rw [heq]
      dsimp only
      split
      · obtain ⟨st1, heq2, h1, h2⟩ := answerHalt_ok env em "success" _ _ hrec
        rw [heq2]
        exact Or.inl ⟨st1, rfl, Or.inl h1⟩
      · refine Or.inr ⟨_, rfl, ?_⟩
        show st3.result.status = st.result.status
        rw [hst, updateCandidates_result]
        rfl

lemma stepBody_ok (env : RunEnv) (plan : List PlanStepM) (em pu : Bool)
    (n : Nat) (st : RunState)
    (hexc : env.exc n = Option.none)
    (hmem : em = true → env.memAdd n = .ok ())
    (hrec : em = true → ∃ r, env.recallCtx = .ok r)
    (hwf : dispatchMatchesWF env) :
    (∃ st1, stepBody env plan em pu n st = .halt st1 ∧
      (statusTerminal st1.result.status ∨ st1.result.status = st.result.status)) ∨
    (∃ st1, stepBody env plan em pu n st = .next st1 ∧
      st1.result.status = st.result.status) := by
  unfold stepBody
  rw [hexc]
  dsimp only
  cases hres : resolveSource env plan n st with
  | error m => exact Or.inl ⟨_, rfl, Or.inr rfl⟩
  | ok trip =>
      obtain ⟨sk, params, pi1⟩ := trip
      dsimp only
      cases hdisp : env.dispatch n sk params with
      | fail m =>
          dsimp only
          split
          · exact Or.inr ⟨_, rfl, rfl⟩
          · exact Or.inl ⟨_, rfl, Or.inr rfl⟩
      | ok eff ep output =>
          dsimp only
          have hwfd : ∀ d v, normalizeOutput output = some d →
              assocGet "matches" d = some v → pyTruthy v = true →
              ∃ l, v = PyVal.list l := by
            intro d v hd hv ht
            cases output with
            | dict d2 =>
                have hd2 : d2 = d := by simpa [normalizeOutput] using hd
                subst hd2
                exact hwf n sk params eff ep d2 v hdisp hv ht
            | str s => simp [normalizeOutput] at hd
            | int k => simp [normalizeOutput] at hd
            | list l => simp [normalizeOutput] at hd
            | none => simp [normalizeOutput] at hd
          rcases okBranch_ok env plan em pu n st (decide (st.planIndex < plan.length)) pi1
              eff ep output hmem hrec hwfd with ⟨st1, heq, hterm⟩ | ⟨st1, heq, hstat⟩
          · rw [heq]
            exact Or.inl ⟨st1, rfl, Or.inl hterm⟩
          · rw [heq]
            exact Or.inr ⟨st1, rfl, hstat⟩

lemma runSteps_ok (env : RunEnv) (plan : List PlanStepM) (em pu : Bool)
    (hexc : ∀ n, env.exc n = Option.none)
    (hmem : ∀ n, em = true → env.memAdd n = .ok ())
    (hrec : em = true → ∃ r, env.recallCtx = .ok r)
    (hwf : dispatchMatchesWF env) :
    ∀ (fuel n : Nat) (st : RunState),
      ∃ st1, runSteps env plan em pu fuel n st = .ok st1 ∧
        (statusTerminal st1.result.status ∨ st1.result.status = st.result.status) := by
  intro fuel
  induction fuel with
  | zero => intro n st; exact ⟨st, rfl, Or.inr rfl⟩
  | succ k ih =>
      intro n st
      simp only [runSteps]
      rcases stepBody_ok env plan em pu n st (hexc n) (hmem n) hrec hwf with
        ⟨st1, heq, hstat⟩ | ⟨st1, heq, hstat⟩
      · rw [heq]
        exact ⟨st1, rfl, hstat⟩
      · rw [heq]
        obtain ⟨st2, heq2, hstat2⟩ := ih (n + 1) st1
        refine ⟨st2, heq2, ?_⟩
        rcases hstat2 with h | h
        · exact Or.inl h
        · exact Or.inr (h.trans hstat)

lemma postLoop_ok (env : RunEnv) (em : Bool) (st : RunState)
    (hrec : em = true → ∃ r, env.recallCtx = .ok r)
    (hstat : st.result.status = "failed" ∨ statusTerminal st.result.status) :
    ∃ st1, postLoop env em st = .ok st1 ∧ statusTerminal st1.result.status ∧
      st1.result.metadataError = st.result.metadataError := by
  unfold postLoop
  rcases hstat with h | h
  · have hb : (st.result.status == "failed") = true := by simp [h]
    rw [if_pos hb]
    by_cases hc : strOptTruthy st.finalCandidate = true
    · rw [if_pos hc]
      cases em with
      | false =>
          refine ⟨_, rfl, ?_, rfl⟩
          cases st.failureOccurred <;> simp [statusTerminal]
      | true =>
          obtain ⟨r, hr⟩ := hrec rfl
          simp only [hr]
          refine ⟨_, rfl, ?_, rfl⟩
          cases st.failureOccurred <;> simp [statusTerminal]
    · rw [if_neg hc]
      cases em with
      | false => exact ⟨_, rfl, Or.inr rfl, rfl⟩
      | true =>
          obtain ⟨r, hr⟩ := hrec rfl
          simp only [hr]
          exact ⟨_, rfl, Or.inr rfl, rfl⟩
  · have hb : (st.result.status == "failed") = false := by
      rcases h with h | h <;> simp [h]
    rw [if_neg (by simp [hb])]
    exact ⟨st, rfl, h, rfl⟩

/-- C1: `Agent.run` always hands back a structured result.  If the body of the
top-level `try` block raises (a truly unexpected engine-internal exception,
including an un-wrapped memory-backend failure), the handler returns a result
with `status = "failed"`, `final_answer = None` and the exception text in
`metadata["error"]`.  For every run whose oracles raise no engine-internal
exception — ordinary skill failures, routing failures and timeouts are all
still allowed in `dispatch`/`route` — the result carries no
`metadata["error"]` and its status is `success` or `partial`, never
`failed`. -/
theorem C1_run_error_policy :
    (∀ (env : RunEnv) (plan : List PlanStepM) (em pu : Bool) (fuel sn : Nat)
        (st st1 : RunState) (m : String),
        agentRunRawFrom env plan em pu fuel sn st = .error (st1, m) →
        (agentRunFrom env plan em pu fuel sn st).status = "failed" ∧
        (agentRunFrom env plan em pu fuel sn st).finalAnswer = Option.none ∧
        (agentRunFrom env plan em pu fuel sn st).metadataError = some m) ∧
    (∀ (env : RunEnv) (plan : List PlanStepM) (em : Bool) (ms : Nat) (task : String),
        (∀ n, env.exc n = Option.none) →
        (∀ n, em = true → env.memAdd n = .ok ()) →
        (em = true → ∃ r, env.recallCtx = .ok r) →
        dispatchMatchesWF env →
        (agentRun env plan em ms task).metadataError = Option.none ∧
        statusTerminal (agentRun env plan em ms task).status) := by
  constructor
  · intro env plan em pu fuel sn st st1 m h
    unfold agentRunFrom
    rw [h]
    exact ⟨rfl, rfl, rfl⟩
  · intro env plan em ms task hexc hmem hrec hwf
    obtain ⟨st1, hrs, hstat1⟩ := runSteps_ok env plan em (!plan.isEmpty) hexc hmem hrec hwf
      ms 1 (initialState task (!plan.isEmpty))
    obtain ⟨added, _, _, _, hme1⟩ :=
      runSteps_trace env plan em (!plan.isEmpty) ms 1 (initialState task (!plan.isEmpty))
    rw [hrs] at hme1
    have hme1' : st1.result.metadataError = Option.none := hme1
    have hstat1' : st1.result.status = "failed" ∨ statusTerminal st1.result.status := by
      rcases hstat1 with h | h
      · exact Or.inr h
      · exact Or.inl (h.trans rfl)
    obtain ⟨st2, hpl, hterm, hme2⟩ := postLoop_ok env em st1 hrec hstat1'
    unfold agentRun agentRunFrom agentRunRawFrom
    rw [hrs]
    simp only [Except.bind]
    rw [hpl]
    constructor
    · show st2.result.metadataError = Option.none
      rw [hme2, hme1']
    · exact hterm

/-- C1 witness: an injected engine exception at step 1 yields a failed result
with the exception text recorded, while a benign run ends without error
metadata. -/
theorem C1_run_error_policy_witness :
    (agentRunRawFrom
        { route := fun _ => .ok ("qa", []),
          dispatch := fun _ _ _ => .ok "qa" [] (.dict [("answer", .str "42")]),
          memAdd := fun _ => .ok (),
          recallCtx := .ok "ctx",
          exc := fun _ => some "boom" }
        [] false false 2 1 (initialState "t" false) =
      .error (initialState "t" false, "boom")) ∧
    ((agentRunFrom
        { route := fun _ => .ok ("qa", []),
          dispatch := fun _ _ _ => .ok "qa" [] (.dict [("answer", .str "42")]),
          memAdd := fun _ => .ok (),
          recallCtx := .ok "ctx",
          exc := fun _ => some "boom" }
        [] false false 2 1 (initialState "t" false)).status = "failed") ∧
    ((agentRunFrom
        { route := fun _ => .ok ("qa", []),
          dispatch := fun _ _ _ => .ok "qa" [] (.dict [("answer", .str "42")]),
          memAdd := fun _ => .ok (),
          recallCtx := .ok "ctx",
          exc := fun _ => some "boom" }
        [] false false 2 1 (initialState "t" false)).metadataError = some "boom") ∧
    ((agentRun
        { route := fun _ => .ok ("qa", []),
          dispatch := fun _ _ _ => .fail "skill blew up",
          memAdd := fun _ => .ok (),
          recallCtx := .ok "ctx",
          exc := fun _ => Option.none }
        [] false 2 "t").metadataError = Option.none) ∧
    statusTerminal (agentRun
        { route := fun _ => .ok ("qa", []),
          dispatch := fun _ _ _ => .fail "skill blew up",
          memAdd := fun _ => .ok (),
          recallCtx := .ok "ctx",
          exc := fun _ => Option.none }
        [] false 2 "t").status := by
  have hraw : agentRunRawFrom
      { route := fun _ => .ok ("qa", []),
        dispatch := fun _ _ _ => .ok "qa" [] (.dict [("answer", .str "42")]),
        memAdd := fun _ => .ok (),
        recallCtx := .ok "ctx",
        exc := fun _ => some "boom" }
      [] false false 2 1 (initialState "t" false) =
      .error (initialState "t" false, "boom") := rfl
  have h1 := C1_run_error_policy.1
    { route := fun _ => .ok ("qa", []),
      dispatch := fun _ _ _ => .ok "qa" [] (.dict [("answer", .str "42")]),
      memAdd := fun _ => .ok (),
      recallCtx := .ok "ctx",
      exc := fun _ => some "boom" }
    [] false false 2 1 (initialState "t" false) (initialState "t" false) "boom" hraw
  have h2 := C1_run_error_policy.2
    { route := fun _ => .ok ("qa", []),
      dispatch := fun _ _ _ => .fail "skill blew up",
      memAdd := fun _ => .ok (),
      recallCtx := .ok "ctx",
      exc := fun _ => Option.none }
    [] false 2 "t" (fun _ => rfl) (fun _ h => by cases h) (fun h => by cases h)
    (fun n sk p eff ep d v hd => by cases hd)
  exact ⟨hraw, h1.1, h1.2.2, h2.1, h2.2⟩

lemma postLoop_skip (env : RunEnv) (em : Bool) (st : RunState)
    (h : (st.result.status == "failed") = false) :
    postLoop env em st = .ok st := by
  unfold postLoop
  rw [if_neg (by simp [h])]

lemma okBranch_success (env : RunEnv) (plan : List PlanStepM) (em pu : Bool)
    (n : Nat) (st : RunState) (isPlan : Bool) (pi1 : Nat) (eff : String)
    (effParams : List (String × PyVal)) (output : PyVal) (s : String)
    (hext : extractAnswerText (normalizeOutput output) = some s)
    (hs : s ≠ "")
    (hplan : plan.length ≤ pi1) :
    okBranch env plan em pu n st isPlan pi1 eff effParams output =
      answerHalt env em "success" s
        (updateCandidates
          { st with
            result := st.result.addStepResult ⟨n, true, some output, Option.none⟩,
            planIndex := pi1 }
          output (normalizeOutput output) (extractAnswerText (normalizeOutput output))) := by
  unfold okBranch
  dsimp only
  have hc : (strOptTruthy (extractAnswerText (normalizeOutput output)) &&
      (!isPlan || !decide (pi1 < plan.length))) = true := by
    rw [hext]
    simp [strOptTruthy, hs, Nat.not_lt.mpr hplan]
  rw [if_pos hc, hext]
  rfl

/-- C5 (amended): whenever a step's dispatched output normalizes to a map in
which the priority scan over `final_answer`, `summary`, `answer`, `output`
finds a scalar whose string form is non-empty, and after this step no plan
steps remain, the run terminates immediately with `status = "success"` and
`final_answer` equal to that string — provided the engine itself raises no
exception at this step and the recall used to populate `memory_used`
succeeds.  (The original claim, without the non-emptiness proviso, is refuted
by `C5_empty_scalar_counterexample`.) -/
theorem C5_answer_extraction_success (env : RunEnv) (plan : List PlanStepM)
    (em pu : Bool) (fuel sn : Nat) (st : RunState)
    (sk : String) (params : List (String × PyVal)) (pi1 : Nat)
    (eff : String) (effParams : List (String × PyVal)) (d : List (String × PyVal))
    (s : String) (hfuel : 1 ≤ fuel)
    (hexc : env.exc sn = Option.none)
    (hres : resolveSource env plan sn st = .ok (sk, params, pi1))
    (hdisp : env.dispatch sn sk params = .ok eff effParams (.dict d))
    (hext : extractAnswerText (some d) = some s)
    (hs : s ≠ "")
    (hplan : plan.length ≤ pi1)
    (hrec : em = true → ∃ r, env.recallCtx = .ok r) :
    (agentRunFrom env plan em pu fuel sn st).status = "success" ∧
    (agentRunFrom env plan em pu fuel sn st).finalAnswer = some s := by
  obtain ⟨k, rfl⟩ : ∃ k, fuel = k + 1 := ⟨fuel - 1, by omega⟩
  have hsb : stepBody env plan em pu sn st =
      answerHalt env em "success" s
        (updateCandidates
          { st with
            result := st.result.addStepResult ⟨sn, true, some (PyVal.dict d), Option.none⟩,
            planIndex := pi1 }
          (PyVal.dict d) (normalizeOutput (PyVal.dict d))
          (extractAnswerText (normalizeOutput (PyVal.dict d)))) := by
    unfold stepBody
    rw [hexc]
    dsimp only
    rw [hres]
    dsimp only
    rw [hdisp]
    dsimp only
    exact okBranch_success env plan em pu sn st _ pi1 eff effParams (PyVal.dict d) s
      hext hs hplan
  obtain ⟨st1, hhalt, h1, h2⟩ := answerHalt_ok env em "success" s
    (updateCandidates
      { st with
        result := st.result.addStepResult ⟨sn, true, some (PyVal.dict d), Option.none⟩,
        planIndex := pi1 }
      (PyVal.dict d) (normalizeOutput (PyVal.dict d))
      (extractAnswerText (normalizeOutput (PyVal.dict d)))) hrec
  unfold agentRunFrom agentRunRawFrom
  simp only [runSteps]
  rw [hsb, hhalt]
  simp only [Except.bind]
  rw [postLoop_skip env em st1 (by simp [h1])]
  exact ⟨h1, h2⟩

/-- The environment of the C5 counterexample: the single (router) step's skill
returns `final_answer` bound to the empty string — a present scalar under the
claim's scan — with no plan steps remaining. -/
def c5Env : RunEnv :=
  { route := fun _ => .ok ("qa", []),
    dispatch := fun _ _ _ => .ok "qa" [] (.dict [("final_answer", .str "")]),
    memAdd := fun _ => .ok (),
    recallCtx := .ok "ctx",
    exc := fun _ => Option.none }

/-- C5 counterexample: the claim as stated fails for the scalar `""`.  The
output map contains `final_answer` and the scan returns the empty string, no
plan steps remain, yet the run does not end in success with that value: the
`if extracted_answer:` truthiness test in `Agent.run` rejects the empty
string, the loop exhausts, and the result is `partial` with no answer. -/
theorem C5_empty_scalar_counterexample :
    extractAnswerText (some [("final_answer", PyVal.str "")]) = some "" ∧
    (agentRun c5Env [] false 1 "t").status = "partial" ∧
    (agentRun c5Env [] false 1 "t").finalAnswer = Option.none ∧
    (agentRun c5Env [] false 1 "t").status ≠ "success" := by
  refine ⟨rfl, rfl, rfl, ?_⟩
  intro h
  rw [show (agentRun c5Env [] false 1 "t").status = "partial" from rfl] at h
  exact absurd h (by decide)

/-- C5 witness: the amended success path on a concrete one-step run. -/
theorem C5_answer_extraction_success_witness :
    ((agentRunFrom
        { route := fun _ => .ok ("qa", []),
          dispatch := fun _ _ _ => .ok "qa" [] (.dict [("answer", .str "42")]),
          memAdd := fun _ => .ok (),
          recallCtx := .ok "ctx",
          exc := fun _ => Option.none }
        [] false false 1 1 (initialState "t" false)).status = "success") ∧
    ((agentRunFrom
        { route := fun _ => .ok ("qa", []),
          dispatch := fun _ _ _ => .ok "qa" [] (.dict [("answer", .str "42")]),
          memAdd := fun _ => .ok (),
          recallCtx := .ok "ctx",
          exc := fun _ => Option.none }
        [] false false 1 1 (initialState "t" false)).finalAnswer = some "42") := by
  exact C5_answer_extraction_success
    { route := fun _ => .ok ("qa", []),
      dispatch := fun _ _ _ => .ok "qa" [] (.dict [("answer", .str "42")]),
      memAdd := fun _ => .ok (),
      recallCtx := .ok "ctx",
      exc := fun _ => Option.none }
    [] false false 1 1 (initialState "t" false) "qa" [] 0 "qa" []
    [("answer", .str "42")] "42" (by decide) rfl rfl rfl rfl (by decide)
    (by decide) (fun h => by cases h)

/-- C6 (amended): if the loop exits without any terminating branch having
fired (its status is still the initial `"failed"`) and no final-answer
candidate was ever extracted, the run ends with `status = "partial"`,
`final_answer` left unset, and `memory_used` populated when memory is
enabled.  (The original claim, which asserted this for every run exhausting
`max_steps` without the success check triggering, is refuted by
`C6_candidate_counterexample`: a candidate extracted mid-plan is promoted to a
`success` answer by the post-loop fixup.) -/
theorem C6_exhaustion_partial (env : RunEnv) (plan : List PlanStepM) (em : Bool)
    (ms : Nat) (task : String) (st : RunState) (r : String)
    (h1 : runSteps env plan em (!plan.isEmpty) ms 1 (initialState task (!plan.isEmpty))
      = .ok st)
    (h2 : st.result.status = "failed")
    (h3 : strOptTruthy st.finalCandidate = false)
    (hrec : em = true → env.recallCtx = .ok r) :
    (agentRun env plan em ms task).status = "partial" ∧
    (agentRun env plan em ms task).finalAnswer = Option.none ∧
    (em = true → (agentRun env plan em ms task).memoryUsed = some r) := by
  unfold agentRun agentRunFrom agentRunRawFrom
  rw [h1]
  simp only [Except.bind]
  unfold postLoop
  rw [if_pos (by simp [h2]), if_neg (by simp [h3])]
  cases em with
  | false => exact ⟨rfl, rfl, fun h => by cases h⟩
  | true =>
      rw [hrec rfl]
      exact ⟨rfl, rfl, fun _ => rfl⟩

/-- The environment and plan of the C6 counterexample: a two-step plan run
with `max_steps = 1`; the first step extracts the candidate `"42"` but the
plan still has a pending step, so the success check does not trigger. -/
def c6Env : RunEnv :=
  { route := fun _ => .ok ("qa", []),
    dispatch := fun _ _ _ => .ok "qa" [] (.dict [("answer", .str "42")]),
    memAdd := fun _ => .ok (),
    recallCtx := .ok "ctx",
    exc := fun _ => Option.none }

/-- The two-step plan of the C6 counterexample. -/
def c6Plan : List PlanStepM :=
  [{ skillName := "s1", inputData := [] }, { skillName := "s2", inputData := [] }]

/-- C6 counterexample: the loop runs its single permitted iteration without
any terminating branch (its status is still `"failed"` on exit), yet the
returned result is `success` with `final_answer = "42"` — not `partial` with
an unset answer as the claim states — because the post-loop fixup promotes
the extracted candidate. -/
theorem C6_candidate_counterexample :
    (exitState (runSteps c6Env c6Plan false (!c6Plan.isEmpty) 1 1
        (initialState "t" (!c6Plan.isEmpty)))).result.status = "failed" ∧
    (agentRun c6Env c6Plan false 1 "t").status = "success" ∧
    (agentRun c6Env c6Plan false 1 "t").finalAnswer = some "42" ∧
    (agentRun c6Env c6Plan false 1 "t").status ≠ "partial" := by
  refine ⟨rfl, rfl, rfl, ?_⟩
  intro h
  rw [show (agentRun c6Env c6Plan false 1 "t").status = "success" from rfl] at h
  exact absurd h (by decide)

/-- C6 witness: the amended exhaustion path on a concrete run (one router step
whose output extracts no answer, with memory enabled). -/
theorem C6_exhaustion_partial_witness :
    ((agentRun
        { route := fun _ => .ok ("qa", []),
          dispatch := fun _ _ _ => .ok "qa" [] (.dict [("data", .str "x")]),
          memAdd := fun _ => .ok (),
          recallCtx := .ok "the recalled context",
          exc := fun _ => Option.none }
        [] true 1 "t").status = "partial") ∧
    ((agentRun
        { route := fun _ => .ok ("qa", []),
          dispatch := fun _ _ _ => .ok "qa" [] (.dict [("data", .str "x")]),
          memAdd := fun _ => .ok (),
          recallCtx := .ok "the recalled context",
          exc := fun _ => Option.none }
        [] true 1 "t").finalAnswer = Option.none) ∧
    ((agentRun
        { route := fun _ => .ok ("qa", []),
          dispatch := fun _ _ _ => .ok "qa" [] (.dict [("data", .str "x")]),
          memAdd := fun _ => .ok (),
          recallCtx := .ok "the recalled context",
          exc := fun _ => Option.none }
        [] true 1 "t").memoryUsed = some "the recalled context") := by
  have h := C6_exhaustion_partial
    { route := fun _ => .ok ("qa", []),
      dispatch := fun _ _ _ => .ok "qa" [] (.dict [("data", .str "x")]),
      memAdd := fun _ => .ok (),
      recallCtx := .ok "the recalled context",
      exc := fun _ => Option.none }
    [] true 1 "t"
    (exitState (runSteps
      { route := fun _ => .ok ("qa", []),
        dispatch := fun _ _ _ => .ok "qa" [] (.dict [("data", .str "x")]),
        memAdd := fun _ => .ok (),
        recallCtx := .ok "the recalled context",
        exc := fun _ => Option.none }
      [] true (!(List.isEmpty ([] : List PlanStepM))) 1 1
      (initialState "t" (!(List.isEmpty ([] : List PlanStepM))))))
    "the recalled context" rfl rfl rfl (fun _ => rfl)
  exact ⟨h.1, h.2.1, h.2.2 rfl⟩

/-- C2 witness: the invariant discharged on a concrete one-step run. -/
theorem C2_step_results_invariant_witness :
    ((agentRun
        { route := fun _ => .ok ("qa", []),
          dispatch := fun _ _ _ => .ok "qa" [] (.dict [("answer", .str "42")]),
          memAdd := fun _ => .ok (),
          recallCtx := .ok "ctx",
          exc := fun _ => Option.none }
        [] false 3 "t").stepResults.length ≤ 3) ∧
    (({ status := "failed", finalAnswer := Option.none, stepResults := [],
        stepsCompleted := 0, memoryUsed := Option.none, metadataError := Option.none,
        planUsed := false, stepsTaken := 0 : AgentResultM }).stepsCompleted = countSucc [] →
      True) := by
  constructor
  · exact (C2_step_results_invariant.1
      { route := fun _ => .ok ("qa", []),
        dispatch := fun _ _ _ => .ok "qa" [] (.dict [("answer", .str "42")]),
        memAdd := fun _ => .ok (),
        recallCtx := .ok "ctx",
        exc := fun _ => Option.none }
      [] false 3 "t").1
  · intro _; trivial

/-! ### Generic association-list helpers for the memory backends

Python dicts with unique keys are modelled as association lists; `alistSet`
mirrors `d[k] = v` (overwrite in place, else append, preserving insertion
order), `alistGet` mirrors `d.get(k)` and `alistRemove` mirrors `del d[k]`
once the key is known to be present. -/

/-- `d[k] = v` on an association list. -/
def alistSet {α β : Type} [BEq α] (k : α) (v : β) (l : List (α × β)) : List (α × β) :=
  if (l.find? (fun p => p.1 == k)).isSome then
    l.map (fun p => if p.1 == k then (p.1, v) else p)
  else l ++ [(k, v)]

/-- `d.get(k)` on an association list. -/
def alistGet {α β : Type} [BEq α] (k : α) (l : List (α × β)) : Option β :=
  (l.find? (fun p => p.1 == k)).map (fun p => p.2)

/-- Removal of every binding of `k` (a unique-key dict has at most one). -/
def alistRemove {α β : Type} [BEq α] (k : α) (l : List (α × β)) : List (α × β) :=
  l.filter (fun p => !(p.1 == k))

lemma alistGet_remove_self {α β : Type} [BEq α] [LawfulBEq α] (k : α)
    (l : List (α × β)) : alistGet k (alistRemove k l) = Option.none := by
  induction l with
  | nil => rfl
  | cons p rest ih =>
      by_cases h : p.1 == k
      · simp [alistRemove, alistGet, List.filter, h]
      · simp [alistRemove, alistGet, List.filter, h]

/-! ### `VectorStore` (`memory/long_term/vector_store.py`)

Embeddings (numpy float32 vectors) are modelled as rational vectors: the
padding/truncation policy the claim concerns is purely structural.
`faiss.normalize_L2` is an arbitrary shape-preserving map `normalize` passed
as a parameter; the claim theorem holds for every such map. -/

/-- A `VectorStore`: the configured dimension, the `IndexFlatIP` rows and the
JSON metadata list. -/
structure VectorStoreM where
  dim : Nat
  entries : List (List Rat)
  meta : List (List (String × PyVal))

/-- `_ensure_dim` on one row: rows of the configured length pass through;
otherwise the row is written into a zero matrix, keeping its first
`min(dim, len)` coordinates — shorter rows are zero-padded, longer ones
truncated.  (numpy applies this to a rectangular batch; the per-row form is
the same operation.) -/
def ensureDimRow (dim : Nat) (row : List Rat) : List Rat :=
  if row.length = dim then row
  else row.take dim ++ List.replicate (dim - row.length) 0

/-- `_ensure_dim` on a batch of rows. -/
def ensureDim (dim : Nat) (rows : List (List Rat)) : List (List Rat) :=
  rows.map (ensureDimRow dim)

lemma ensureDimRow_length (dim : Nat) (row : List Rat) :
    (ensureDimRow dim row).length = dim := by
  unfold ensureDimRow
  split
  · assumption
  · simp only [List.length_append, List.length_take, List.length_replicate]
    omega

/-- `VectorStore.add`: reject mismatched lengths, ensure the dimension,
normalize, append to the index, and append metadata copies with assigned
`_id`s. -/
def vsAdd (normalize : List Rat → List Rat) (vs : VectorStoreM)
    (embeddings : List (List Rat)) (metadatas : List (List (String × PyVal))) :
    Except String VectorStoreM :=
  if embeddings.length ≠ metadatas.length then
    .error "embeddings and metadatas length mismatch"
  else
    let arr := (ensureDim vs.dim embeddings).map normalize
    let startId := vs.meta.length
    .ok { vs with
      entries := vs.entries ++ arr,
      meta := vs.meta ++ metadatas.enum.map
        (fun p => alistSet "_id" (PyVal.int (startId + p.1)) p.2) }

/-- The vector actually used to query the index in `VectorStore.search`. -/
def vsQueryVector (normalize : List Rat → List Rat) (vs : VectorStoreM)
    (q : List Rat) : List Rat :=
  normalize (ensureDimRow vs.dim q)

/-- Inner product of two vectors. -/
def dotProduct (a b : List Rat) : Rat :=
  (List.zipWith (fun x y => x * y) a b).sum

/-- Stable-enough descending insertion by score (the exact tie order of the
FAISS search is irrelevant to every claim). -/
def insertScoreDesc (p : Nat × Rat) : List (Nat × Rat) → List (Nat × Rat)
  | [] => [p]
  | q :: rest =>
      if q.2 < p.2 then p :: q :: rest else q :: insertScoreDesc p rest

/-- Sort index/score pairs by descending score. -/
def sortScoreDesc : List (Nat × Rat) → List (Nat × Rat)
  | [] => []
  | p :: rest => insertScoreDesc p (sortScoreDesc rest)

/-- `VectorStore.search`: ensure the query dimension, normalize, rank the
rows by inner product, take `top_k`, and resolve the surviving row indices in
the metadata list. -/
def vsSearch (normalize : List Rat → List Rat) (vs : VectorStoreM)
    (q : List Rat) (topK : Nat) : List (Rat × List (String × PyVal)) :=
  let qv := vsQueryVector normalize vs q
  let ranked := (sortScoreDesc (vs.entries.map (dotProduct qv)).enum).take topK
  ranked.filterMap (fun p =>
    match vs.meta.get? p.1 with
    | some m => some (p.2, m)
    | Option.none => Option.none)

/-- `VectorStore.count`. -/
def vsCount (vs : VectorStoreM) : Nat := vs.meta.length

/-! ### `FAISSBackend` (`skill_engine/memory/faiss_backend.py`)

SQLite rows are modelled as an association list keyed by record id (the
`PRIMARY KEY`); the FAISS `IndexFlatL2` is the ordered list of inserted
vectors; `_index_id_map` and `_id_to_index` are association lists.  The
embedding provider (`_embed`) is a parameter. -/

/-- One `memory_records` row (without its id, which is the key). -/
structure DbRow where
  content : String
  timestamp : String
  metadata : String
  faissIndex : Option Nat
deriving DecidableEq

/-- The mutable state of a `FAISSBackend`. -/
structure FAISSBackendM where
  embeddingDim : Nat
  indexVecs : List (List Rat)
  dbRows : List (String × DbRow)
  indexIdMap : List (Nat × String)
  idToIndex : List (String × Nat)

/-- A `MemoryRecord` as consumed by `FAISSBackend.add`. -/
structure MemoryRecordM where
  id : String
  content : String
  timestamp : String
  metadata : String
  embedding : Option (List Rat)

/-- `FAISSBackend.add` for one record: assign an id if empty, embed the
content when no embedding is provided, append the embedding vector **as
given** to the index (no dimension adaptation happens on this path), record
the id↔row mappings, and upsert the SQLite row. -/
def fbAddRecord (embed : String → List Rat) (uuid : String)
    (st : FAISSBackendM) (r : MemoryRecordM) : FAISSBackendM :=
  let rid := if r.id = "" then uuid else r.id
  let emb := match r.embedding with
    | Option.none => embed r.content
    | some e => e
  let faissIdx := st.indexVecs.length
  { st with
    indexVecs := st.indexVecs ++ [emb],
    indexIdMap := alistSet faissIdx rid st.indexIdMap,
    idToIndex := alistSet rid faissIdx st.idToIndex,
    dbRows := alistSet rid ⟨r.content, r.timestamp, r.metadata, some faissIdx⟩
      st.dbRows }

/-- `FAISSBackend.add` over a record batch. -/
def fbAdd (embed : String → List Rat) (uuids : Nat → String)
    (st : FAISSBackendM) (records : List MemoryRecordM) : FAISSBackendM :=
  records.enum.foldl (fun s p => fbAddRecord embed (uuids p.1) s p.2) st

/-- `FAISSBackend.delete` for one id: the SQL `DELETE` is a no-op on a
missing row; when the id is mapped, both mapping entries are removed — the
`del self._index_id_map[faiss_idx]` raises `KeyError` if the maps have drifted
apart, which the error case records.  The vector list is never touched. -/
def fbDeleteOne (st : FAISSBackendM) (rid : String) : Except String FAISSBackendM :=
  let rows2 := alistRemove rid st.dbRows
  match alistGet rid st.idToIndex with
  | Option.none => .ok { st with dbRows := rows2 }
  | some fi =>
      if (alistGet fi st.indexIdMap).isSome then
        .ok { st with
          dbRows := rows2,
          indexIdMap := alistRemove fi st.indexIdMap,
          idToIndex := alistRemove rid st.idToIndex }
      else .error "KeyError"

/-- `FAISSBackend.delete` over a list of ids. -/
def fbDelete (st : FAISSBackendM) (ids : List String) : Except String FAISSBackendM :=
  ids.foldlM fbDeleteOne st

/-- `FAISSBackend.count`: `SELECT COUNT(*) FROM memory_records`. -/
def fbCount (st : FAISSBackendM) : Nat := st.dbRows.length

/-- Consistency of the two id maps, as maintained by `add`/`_rebuild_mappings`:
every id→row binding has a matching row→id binding. -/
def fbMapsConsistent (st : FAISSBackendM) : Prop :=
  ∀ p ∈ st.idToIndex, (alistGet p.2 st.indexIdMap).isSome = true

/-- C8 (amended, `VectorStore` part): for every shape-preserving
normalization, every store whose rows already have the configured dimension,
and every batch with matching metadata, `add` succeeds (no error is raised
for a dimension mismatch) and every row of the resulting index has exactly
the configured dimension; the vector used to query in `search` likewise has
exactly the configured dimension. -/
theorem C8_vector_store_dimension (normalize : List Rat → List Rat)
    (hnorm : ∀ v, (normalize v).length = v.length)
    (vs : VectorStoreM) (hvs : ∀ v ∈ vs.entries, v.length = vs.dim)
    (embeddings : List (List Rat)) (metadatas : List (List (String × PyVal)))
    (hlen : embeddings.length = metadatas.length) :
    (∃ vs2, vsAdd normalize vs embeddings metadatas = .ok vs2 ∧
      vs2.dim = vs.dim ∧ ∀ v ∈ vs2.entries, v.length = vs.dim) ∧
    (∀ q, (vsQueryVector normalize vs q).length = vs.dim) := by
  constructor
  · refine ⟨{ vs with
      entries := vs.entries ++ (ensureDim vs.dim embeddings).map normalize,
      meta := vs.meta ++ metadatas.enum.map
        (fun p => alistSet "_id" (PyVal.int ((vs.meta.length : Int) + (p.1 : Int))) p.2) },
      ?_, rfl, ?_⟩
    · rw [vsAdd, if_neg (by omega)]
    · intro v hv
      rcases List.mem_append.mp hv with h | h
      · exact hvs v h
      · simp only [List.mem_map, ensureDim] at h
        obtain ⟨w, ⟨row, _, rfl⟩, rfl⟩ := h
        rw [hnorm, ensureDimRow_length]
  · intro q
    rw [vsQueryVector, hnorm, ensureDimRow_length]

/-- C8 counterexample: the claim quantifies over every long-term vector add,
but `FAISSBackend.add` hands the caller-provided embedding to the index
unmodified: with a configured dimension of 3, an embedding of length 2 is
inserted as-is — it is not zero-padded to length 3 (the real FAISS library
then rejects the mismatched row with an exception rather than adapting it,
violating the claim either way). -/
theorem C8_faiss_backend_counterexample :
    ((fbAddRecord (fun _ => List.replicate 3 0) "u1"
        { embeddingDim := 3, indexVecs := [], dbRows := [],
          indexIdMap := [], idToIndex := [] }
        { id := "r1", content := "c", timestamp := "ts", metadata := "m",
          embedding := some [1, 2] }).indexVecs = [[1, 2]]) ∧
    ¬(([(1 : Rat), 2]).length =
      ({ embeddingDim := 3, indexVecs := [], dbRows := [],
         indexIdMap := [], idToIndex := [] : FAISSBackendM }).embeddingDim) := by
  exact ⟨rfl, by decide⟩

/-- C8 witness: the `VectorStore` invariant on a concrete store and batch. -/
theorem C8_vector_store_dimension_witness :
    (∀ v, (id v : List Rat).length = v.length) ∧
    (∃ vs2, vsAdd id { dim := 3, entries := [], meta := [] } [[1, 2]] [[]] = .ok vs2 ∧
      vs2.dim = 3 ∧ ∀ v ∈ vs2.entries, v.length = 3) ∧
    (vsQueryVector id { dim := 3, entries := [], meta := [] } [1, 2, 3, 4]).length = 3 := by
  have h := C8_vector_store_dimension id (fun _ => rfl)
    { dim := 3, entries := [], meta := [] } (by intro v hv; cases hv)
    [[1, 2]] [[]] rfl
  exact ⟨fun _ => rfl, h.1, h.2 [1, 2, 3, 4]⟩

/-- C9: on a backend whose id maps are consistent (as `add` maintains them),
deleting the same id twice never raises: the first delete removes the
relational row and both mapping entries, the second is a complete no-op (it
returns the state unchanged), so `count()` is unchanged by the second call —
and neither call removes any vector from the index. -/
theorem C9_idempotent_delete (st : FAISSBackendM) (rid : String)
    (hwf : fbMapsConsistent st) :
    ∃ st1 st2, fbDelete st [rid] = .ok st1 ∧
      fbDelete st1 [rid] = .ok st2 ∧
      fbCount st2 = fbCount st1 ∧
      st1.indexVecs = st.indexVecs ∧ st2.indexVecs = st.indexVecs := by
  have hfold : ∀ s : FAISSBackendM, fbDelete s [rid] = fbDeleteOne s rid := by
    intro s
    simp [fbDelete, List.foldlM]
  have hidem : ∀ l : List (String × DbRow),
      alistRemove rid (alistRemove rid l) = alistRemove rid l := by
    intro l
    simp [alistRemove, List.filter_filter]
  have hnoop : ∀ s : FAISSBackendM, alistGet rid s.idToIndex = Option.none →
      alistRemove rid s.dbRows = s.dbRows → fbDeleteOne s rid = .ok s := by
    intro s h1 h2
    unfold fbDeleteOne
    dsimp only
    rw [h1, h2]
  cases hget : alistGet rid st.idToIndex with
  | none =>
      refine ⟨{ st with dbRows := alistRemove rid st.dbRows },
        { st with dbRows := alistRemove rid st.dbRows }, ?_, ?_, rfl, rfl, rfl⟩
      · rw [hfold]
        unfold fbDeleteOne
        dsimp only
        rw [hget]
      · rw [hfold]
        exact hnoop _ hget (hidem st.dbRows)
  | some fi =>
      have hfind : ∃ p, st.idToIndex.find? (fun q => q.1 == rid) = some p ∧ p.2 = fi := by
        unfold alistGet at hget
        cases h3 : st.idToIndex.find? (fun q => q.1 == rid) with
        | none => rw [h3] at hget; cases hget
        | some p =>
            rw [h3] at hget
            exact ⟨p, rfl, by simpa using hget⟩
      obtain ⟨p, hp, hp2⟩ := hfind
      have hmem : (alistGet fi st.indexIdMap).isSome = true := by
        rw [← hp2]
        exact hwf p (List.mem_of_find?_eq_some hp)
      refine ⟨{ st with
        dbRows := alistRemove rid st.dbRows,
        indexIdMap := alistRemove fi st.indexIdMap,
        idToIndex := alistRemove rid st.idToIndex },
        { st with
          dbRows := alistRemove rid st.dbRows,
          indexIdMap := alistRemove fi st.indexIdMap,
          idToIndex := alistRemove rid st.idToIndex }, ?_, ?_, rfl, rfl, rfl⟩
      · rw [hfold]
        unfold fbDeleteOne
        dsimp only
        rw [hget]
        dsimp only
        rw [hmem]
        rfl
      · rw [hfold]
        exact hnoop _ (alistGet_remove_self rid st.idToIndex) (hidem st.dbRows)

/-- C9 witness: double delete on a concrete consistent backend. -/
theorem C9_idempotent_delete_witness :
    fbMapsConsistent
      { embeddingDim := 3, indexVecs := [[1, 2, 3]],
        dbRows := [("a", ⟨"c", "ts", "m", some 0⟩)],
        indexIdMap := [(0, "a")], idToIndex := [("a", 0)] } ∧
    ∃ st1 st2, fbDelete
        { embeddingDim := 3, indexVecs := [[1, 2, 3]],
          dbRows := [("a", ⟨"c", "ts", "m", some 0⟩)],
          indexIdMap := [(0, "a")], idToIndex := [("a", 0)] } ["a"] = .ok st1 ∧
      fbDelete st1 ["a"] = .ok st2 ∧
      fbCount st2 = fbCount st1 ∧
      st1.indexVecs = [[1, 2, 3]] ∧ st2.indexVecs = [[1, 2, 3]] := by
  constructor
  · intro p hp
    simp only [List.mem_singleton] at hp
    subst hp
    rfl
  · exact C9_idempotent_delete
      { embeddingDim := 3, indexVecs := [[1, 2, 3]],
        dbRows := [("a", ⟨"c", "ts", "m", some 0⟩)],
        indexIdMap := [(0, "a")], idToIndex := [("a", 0)] } "a"
      (by intro p hp; simp only [List.mem_singleton] at hp; subst hp; rfl)

/-! ### `MemoryFacade` (`skill_engine/memory/facade.py`)

The three tier backends are opaque states of arbitrary types with their
operations passed as functions, so every theorem about the facade's dispatch
holds for every possible backend.  Each facade method returns its Python
return value (or the raised `ValueError`) together with the facade state
afterwards; a raise leaves the state exactly as it was, since the `else:
raise` branch runs before any backend call. -/

/-- A `MemoryRecord` as returned by the tier search operations (the fields
`search`'s merge logic reads). -/
structure MemoryRecordR where
  id : String
  content : String
  timestamp : String
  md : List (String × PyVal)

/-- The facade over three opaque tier states. -/
structure FacadeM (σ₁ σ₂ σ₃ : Type) where
  shortTerm : σ₁
  longTerm : σ₂
  scratchpad : σ₃

/-- `MemoryFacade.add`: dispatch on the tier name; the scratchpad path passes
`metadata.get("tag", "")` (the raw value, defaulting to the empty string);
any other tier name raises `ValueError` before touching a backend. -/
def facadeAdd {σ₁ σ₂ σ₃ : Type} (st : FacadeM σ₁ σ₂ σ₃)
    (addST : String → Option (List (String × PyVal)) → σ₁ → String × σ₁)
    (addLT : String → Option (List (String × PyVal)) → σ₂ → String × σ₂)
    (addSP : String → PyVal → σ₃ → String × σ₃)
    (content : String) (tier : String) (md : Option (List (String × PyVal))) :
    Except String String × FacadeM σ₁ σ₂ σ₃ :=
  if tier = "short_term" then
    let r := addST content md st.shortTerm
    (.ok r.1, { st with shortTerm := r.2 })
  else if tier = "long_term" then
    let r := addLT content md st.longTerm
    (.ok r.1, { st with longTerm := r.2 })
  else if tier = "scratchpad" then
    let tag := match md with
      | some m => (assocGet "tag" m).getD (PyVal.str "")
      | Option.none => PyVal.str ""
    let r := addSP content tag st.scratchpad
    (.ok r.1, { st with scratchpad := r.2 })
  else
    (.error ("Unknown memory tier: " ++ tier), st)

/-- Stable-enough descending insertion by timestamp for the `tier="all"`
merge (Python's `sorted(..., reverse=True)`; the exact tie order is
irrelevant to every claim). -/
def insertTsDesc (r : MemoryRecordR) : List MemoryRecordR → List MemoryRecordR
  | [] => [r]
  | q :: rest =>
      if q.timestamp < r.timestamp then r :: q :: rest else q :: insertTsDesc r rest

/-- Sort records by descending timestamp. -/
def sortTsDesc : List MemoryRecordR → List MemoryRecordR
  | [] => []
  | r :: rest => insertTsDesc r (sortTsDesc rest)

/-- Deduplicate by id, keeping the first occurrence. -/
def dedupById (seen : List String) : List MemoryRecordR → List MemoryRecordR
  | [] => []
  | r :: rest =>
      if seen.contains r.id then dedupById seen rest
      else r :: dedupById (r.id :: seen) rest

/-- `MemoryFacade.search`: dispatch on the tier name; `"all"` merges the
three tiers (sorted by recency, deduplicated by id, truncated to `top_k`);
any other tier name raises `ValueError` before touching a backend. -/
def facadeSearch {σ₁ σ₂ σ₃ : Type} (st : FacadeM σ₁ σ₂ σ₃)
    (searchST : String → Nat → σ₁ → List MemoryRecordR × σ₁)
    (searchLT : String → Nat → σ₂ → List MemoryRecordR × σ₂)
    (searchSP : String → Nat → σ₃ → List MemoryRecordR × σ₃)
    (query : String) (tier : String) (topK : Nat) :
    Except String (List MemoryRecordR) × FacadeM σ₁ σ₂ σ₃ :=
  if tier = "short_term" then
    let r := searchST query topK st.shortTerm
    (.ok r.1, { st with shortTerm := r.2 })
  else if tier = "long_term" then
    let r := searchLT query topK st.longTerm
    (.ok r.1, { st with longTerm := r.2 })
  else if tier = "scratchpad" then
    let r := searchSP query topK st.scratchpad
    (.ok r.1, { st with scratchpad := r.2 })
  else if tier = "all" then
    let r1 := searchST query topK st.shortTerm
    let r2 := searchLT query topK st.longTerm
    let r3 := searchSP query topK st.scratchpad
    ((.ok ((dedupById [] (sortTsDesc (r1.1 ++ r2.1 ++ r3.1))).take topK)),
      { shortTerm := r1.2, longTerm := r2.2, scratchpad := r3.2 })
  else
    (.error ("Unknown memory tier: " ++ tier), st)

/-- `MemoryFacade.clear_tier`: dispatch on the tier name; any other tier name
raises `ValueError` before touching a backend. -/
def facadeClearTier {σ₁ σ₂ σ₃ : Type} (st : FacadeM σ₁ σ₂ σ₃)
    (clearST : σ₁ → σ₁) (clearLT : σ₂ → σ₂) (clearSP : σ₃ → σ₃)
    (tier : String) : Except String Unit × FacadeM σ₁ σ₂ σ₃ :=
  if tier = "short_term" then (.ok (), { st with shortTerm := clearST st.shortTerm })
  else if tier = "long_term" then (.ok (), { st with longTerm := clearLT st.longTerm })
  else if tier = "scratchpad" then
    (.ok (), { st with scratchpad := clearSP st.scratchpad })
  else
    (.error ("Unknown memory tier: " ++ tier), st)

/-- C10: for every tier string outside the recognized names (the three tiers,
plus `"all"`, which only `search` accepts), `MemoryFacade.add`, `search` and
`clear_tier` all raise `ValueError` and return with every tier state exactly
as it was — for every possible backend implementation, since the raise
happens before any backend call. -/
theorem C10_invalid_tier_rejected (σ₁ σ₂ σ₃ : Type) (st : FacadeM σ₁ σ₂ σ₃)
    (addST : String → Option (List (String × PyVal)) → σ₁ → String × σ₁)
    (addLT : String → Option (List (String × PyVal)) → σ₂ → String × σ₂)
    (addSP : String → PyVal → σ₃ → String × σ₃)
    (searchST : String → Nat → σ₁ → List MemoryRecordR × σ₁)
    (searchLT : String → Nat → σ₂ → List MemoryRecordR × σ₂)
    (searchSP : String → Nat → σ₃ → List MemoryRecordR × σ₃)
    (clearST : σ₁ → σ₁) (clearLT : σ₂ → σ₂) (clearSP : σ₃ → σ₃)
    (content query tier : String) (md : Option (List (String × PyVal))) (topK : Nat)
    (htier : tier ∉ (["short_term", "long_term", "scratchpad", "all"] : List String)) :
    facadeAdd st addST addLT addSP content tier md =
      (.error ("Unknown memory tier: " ++ tier), st) ∧
    facadeSearch st searchST searchLT searchSP query tier topK =
      (.error ("Unknown memory tier: " ++ tier), st) ∧
    facadeClearTier st clearST clearLT clearSP tier =
      (.error ("Unknown memory tier: " ++ tier), st) := by
  have h1 : tier ≠ "short_term" := by intro h; exact htier (by simp [h])
  have h2 : tier ≠ "long_term" := by intro h; exact htier (by simp [h])
  have h3 : tier ≠ "scratchpad" := by intro h; exact htier (by simp [h])
  have h4 : tier ≠ "all" := by intro h; exact htier (by simp [h])
  refine ⟨?_, ?_, ?_⟩
  · unfold facadeAdd
    rw [if_neg h1, if_neg h2, if_neg h3]
  · unfold facadeSearch
    rw [if_neg h1, if_neg h2, if_neg h3, if_neg h4]
  · unfold facadeClearTier
    rw [if_neg h1, if_neg h2, if_neg h3]

/-- C10 witness: the tier name `"episodic"` is rejected by all three methods
on a concrete facade with unit backends. -/
theorem C10_invalid_tier_rejected_witness :
    ("episodic" ∉ (["short_term", "long_term", "scratchpad", "all"] : List String)) ∧
    facadeAdd (⟨(), (), ()⟩ : FacadeM Unit Unit Unit)
      (fun _ _ s => ("i1", s)) (fun _ _ s => ("i2", s)) (fun _ _ s => ("i3", s))
      "c" "episodic" Option.none =
      (.error ("Unknown memory tier: " ++ "episodic"), (⟨(), (), ()⟩ : FacadeM Unit Unit Unit)) ∧
    facadeClearTier (⟨(), (), ()⟩ : FacadeM Unit Unit Unit)
      id id id "episodic" =
      (.error ("Unknown memory tier: " ++ "episodic"), (⟨(), (), ()⟩ : FacadeM Unit Unit Unit)) := by
  have h := C10_invalid_tier_rejected Unit Unit Unit (⟨(), (), ()⟩ : FacadeM Unit Unit Unit)
    (fun _ _ s => ("i1", s)) (fun _ _ s => ("i2", s)) (fun _ _ s => ("i3", s))
    (fun _ _ s => ([], s)) (fun _ _ s => ([], s)) (fun _ _ s => ([], s))
    id id id "c" "q" "episodic" Option.none 5 (by decide)
  exact ⟨by decide, h.1, h.2.2⟩

end SkillOS
